import Mathlib

/-!
Verification development for the CodeCredX pipeline (`nodes.py`, `flow.py`,
`main.py`).  The Python stages are shallowly embedded as pure Lean functions:
dictionaries become structures, Python floats become rationals (every float the
pipeline stores in a score field is the result of `round(x, 2)`, so rounding to
two decimals is modelled by `round2` below), and the network / LLM
collaborators become explicit oracle arguments.
-/

namespace CodeCredX

/-- Python `round(q, 2)` modelled over the rationals: round `q * 100` to the
nearest integer and divide by `100`.  (CPython rounds half to even on binary
floats; no claim in this development depends on a tie, and every concrete value
that reaches `round` in a claim is exact at two decimals.) -/
def round2 (q : ℚ) : ℚ := (round (q * 100) : ℤ) / 100

/-- Python truthiness of an optional string: `None` and `""` are falsy. -/
def pyTruthy : Option String → Bool
  | none => false
  | some s => s ≠ ""

/-- The `scores` sub-dictionary of a project record.  The three keys are the
ones written by `ContributionNode`, `OriginalityNode` and `TrustHeuristicNode`;
`none` models the key being absent. -/
structure Scores where
  contribution_score : Option ℚ := none
  originality_score : Option ℚ := none
  trust_score : Option ℚ := none
deriving DecidableEq, Repr

/-- One `project_data` dictionary as built by `GitHubAnalyzerNode.exec`
(nodes.py lines 224-234) and enriched by the later stages.  The `metadata`
sub-dictionary is flattened to the fields the pipeline actually reads
(`description`, `stars`, `fork`); `stars` models the integer
`stargazers_count` returned by the GitHub API. -/
structure Project where
  url : String
  owner : String := ""
  repo_name : String := ""
  status : String := "pending"
  description : Option String := none
  stars : ℕ := 0
  fork : Bool := false
  readme_content : Option String := none
  error : Option String := none
  summary : Option String := none
  scores : Scores := {}
deriving DecidableEq, Repr

/-- `ContributionNode.exec` body for one project (nodes.py lines 358-366):
on success, `min(100, round(stars / 100, 2))`; otherwise `0`. -/
def contributionUpdate (p : Project) : Project :=
  if p.status = "success" then
    let s : ℚ := min 100 (round2 ((p.stars : ℚ) / 100))
    { p with scores := { p.scores with contribution_score := some s } }
  else
    { p with scores := { p.scores with contribution_score := some 0 } }

/-- `ContributionNode.exec` (nodes.py lines 356-367): per-item update of every
project in the batch, in order. -/
def contributionExec (projects : List Project) : List Project :=
  projects.map contributionUpdate

/-- `OriginalityNode.exec` body for one project (nodes.py lines 380-388).
`rand` is the value `random.randint(30, 70)` would return for this project. -/
def originalityUpdate (p : Project) (rand : ℤ) : Project :=
  if p.status = "success" then
    let s : ℚ := if ¬ p.fork then 100 else (rand : ℚ)
    { p with scores := { p.scores with originality_score := some s } }
  else
    { p with scores := { p.scores with originality_score := some 0 } }

/-- `OriginalityNode.exec` (nodes.py lines 378-389); `rand i` is the random
draw consumed while processing the `i`-th project. -/
def originalityExec (projects : List Project) (rand : ℕ → ℤ) : List Project :=
  projects.mapIdx (fun i p => originalityUpdate p (rand i))

/-- The summarization-succeeded test of `TrustHeuristicNode.exec`
(nodes.py lines 405-407): readme and summary truthy, the summary is not an
LLM-error message and not the no-content placeholder. -/
def trustBonusCond (p : Project) : Prop :=
  pyTruthy p.readme_content = true ∧ pyTruthy p.summary = true ∧
    ¬ ("Error generating".data <:+: (p.summary.getD "").data) ∧
    p.summary.getD "" ≠ "No content available to summarize for this project."

instance (p : Project) : Decidable (trustBonusCond p) := by
  unfold trustBonusCond; infer_instance

/-- `TrustHeuristicNode.exec` body for one project (nodes.py lines 402-419):
on success, `round(min(100, bonus + 0.3 * contribution + 0.7 * originality), 2)`
where `bonus` is `30` when the readme/summary condition holds; otherwise `0`.
Missing score keys default to `0` (the `.get(key, 0)` calls). -/
def trustUpdate (p : Project) : Project :=
  if p.status = "success" then
    let base : ℚ := if trustBonusCond p then 30 else 0
    let contrib := p.scores.contribution_score.getD 0
    let orig := p.scores.originality_score.getD 0
    let total := base + (contrib * (3 / 10) + orig * (7 / 10))
    { p with scores := { p.scores with trust_score := some (round2 (min 100 total)) } }
  else
    { p with scores := { p.scores with trust_score := some 0 } }

/-- `TrustHeuristicNode.exec` (nodes.py lines 400-420). -/
def trustHeuristicExec (projects : List Project) : List Project :=
  projects.map trustUpdate

/-- The `overall_candidate_metrics` dictionary.  `elo_score` and
`role_ranking_pool` model keys added later by `EloRankingNode`. -/
structure Metrics where
  overall_candidate_score : ℚ
  num_successful_projects : ℕ
  elo_score : Option ℚ := none
  role_ranking_pool : Option String := none
deriving DecidableEq, Repr

/-- The per-project filter of `CandidateAggregationNode.exec` (nodes.py lines
435-439): keep the trust score of each project whose status is `"success"` and
whose `scores` dictionary has a `trust_score` key. -/
def successfulTrustScores (projects : List Project) : List ℚ :=
  projects.filterMap (fun p =>
    if p.status = "success" then p.scores.trust_score else none)

/-- `CandidateAggregationNode.exec` (nodes.py lines 431-452): average the
successful projects' trust scores (0.0 when there are none) and round to two
decimals. -/
def candidateAggregationExec (projects : List Project) : Metrics :=
  let scores := successfulTrustScores projects
  let overall : ℚ := if scores ≠ [] then scores.sum / scores.length else 0
  { overall_candidate_score := round2 overall
    num_successful_projects := scores.length }

/-- `EloRankingNode.exec` (nodes.py lines 463-477):
`elo = round(800 + overall / 100 * (2000 - 800), 2)`, plus the ranking pool. -/
def eloRankingExec (m : Metrics) : Metrics :=
  { m with
    elo_score := some (round2 (800 + m.overall_candidate_score / 100 * (2000 - 800)))
    role_ranking_pool := some "General" }

/-! ## Decimal rendering of numbers

Python renders numbers into f-strings with `str`; the analyzer's error
messages and the report embed such renderings.  `natStr` is base-10 printing
of a natural number, built on `Nat.digits`. -/

/-- The ASCII digit character for `d < 10`. -/
def digitCh (d : ℕ) : Char := Char.ofNat (48 + d)

/-- Base-10 rendering of a natural number, as Python `str` does. -/
def natStr (n : ℕ) : String :=
  if n = 0 then "0" else ⟨((Nat.digits 10 n).reverse.map digitCh)⟩

/-- Base-10 rendering of an integer, as Python `str` does. -/
def intStr (z : ℤ) : String :=
  if z < 0 then "-" ++ natStr z.natAbs else natStr z.natAbs

/-! ## GitHubAnalyzerNode

`exec` (nodes.py lines 202-302) walks the URL list in order.  Each URL is
first matched against the pattern `https?://github.com/([^/]+)/([^/]+)`
(`re.match`, i.e. anchored at the start; the dot is unescaped so it matches
any character); non-matching URLs are skipped with `continue`.  For each
matching URL the stage performs the repository-metadata request and the README
request; every exception raised inside the per-item `try` block — including
the classified `HTTPError` / `Timeout` / `RequestException` cases and the
final catch-all `except Exception` — is handled locally by marking the item
`"failed"`, and the loop then proceeds to the next URL.  The network is
modelled by an oracle mapping each URL to a `FetchResult`. -/

/-- Consume an exact literal character sequence from the front of `cs`. -/
def dropLit : List Char → List Char → Option (List Char)
  | [], r => some r
  | _ :: _, [] => none
  | p :: ps, c :: cs => if c = p then dropLit ps cs else none

/-- The anchored match `re.match(r'https?://github.com/([^/]+)/([^/]+)', url)`
returning the `(owner, repo_name)` groups.  The unescaped `.` of the source
pattern matches an arbitrary single character. -/
def parseOwnerRepo (url : String) : Option (String × String) :=
  match dropLit ("http".data) url.data with
  | none => none
  | some r1 =>
    let r2 := if r1.take 4 = ("s://".data) then r1.drop 1 else r1
    match dropLit ("://github".data) r2 with
    | none => none
    | some r3 =>
      match r3 with
      | [] => none
      | _anyChar :: r4 =>
        match dropLit ("com/".data) r4 with
        | none => none
        | some r5 =>
          let owner := r5.takeWhile (· ≠ '/')
          if owner = [] then none else
          match r5.dropWhile (· ≠ '/') with
          | '/' :: r6 =>
            let repo := r6.takeWhile (· ≠ '/')
            if repo = [] then none else some (⟨owner⟩, ⟨repo⟩)
          | _ => none

/-- The repository-metadata fields the pipeline reads downstream
(nodes.py lines 241-252), flattened as in `Project`. -/
structure RepoMeta where
  description : Option String := none
  stars : ℕ := 0
  fork : Bool := false
deriving DecidableEq, Repr

/-- Outcome of the README request for a repository whose metadata request
succeeded (nodes.py lines 255-272). -/
inductive ReadmeResult where
  /-- HTTP 200 with base64 content that decodes to `content`. -/
  | okBase64 (content : String)
  /-- HTTP 200 but the payload is not base64-encoded content. -/
  | badFormat
  /-- HTTP 404. -/
  | notFound
  /-- any other HTTP status `code`. -/
  | httpOther (code : ℕ)
deriving DecidableEq, Repr

/-- An exception raised inside the per-item `try` block, as discriminated by
the `except` clauses of nodes.py lines 276-299: `requests.exceptions.HTTPError`
(carrying the response status), `Timeout`, any other `RequestException`, or an
arbitrary unexpected exception reaching the catch-all `except Exception`. -/
inductive FetchExn where
  | httpError (code : ℕ) (text : String)
  | timeout
  | networkError (msg : String)
  | unexpectedExn (msg : String)
deriving DecidableEq, Repr

/-- What the two `requests.get` calls for one URL do, seen from the stage:
both requests succeed (with the given metadata and README outcome), the
repository request raises, or the repository request succeeds and the README
request (or the subsequent decoding) raises. -/
inductive FetchResult where
  | ok (meta : RepoMeta) (readme : ReadmeResult)
  | exnAtRepo (e : FetchExn)
  | exnAtReadme (meta : RepoMeta) (e : FetchExn)
deriving DecidableEq, Repr

/-- A `FetchResult` handled by one of the classified `except` clauses
(`HTTPError` / `Timeout` / `RequestException`), i.e. not by the catch-all. -/
def classifiedFailure : FetchResult → Prop
  | .exnAtRepo (.unexpectedExn _) => False
  | .exnAtRepo _ => True
  | .exnAtReadme _ (.unexpectedExn _) => False
  | .exnAtReadme _ _ => True
  | .ok _ _ => False

instance (f : FetchResult) : Decidable (classifiedFailure f) := by
  unfold classifiedFailure
  match f with
  | .exnAtRepo e => cases e <;> infer_instance
  | .exnAtReadme _ e => cases e <;> infer_instance
  | .ok _ _ => infer_instance

/-- The shared `except` chain of `GitHubAnalyzerNode.exec` (nodes.py lines
276-299): set `status = "failed"` and record the classified (or catch-all)
error message. -/
def recordFetchExn (p : Project) (url : String) (e : FetchExn) : Project :=
  match e with
  | .httpError code text =>
      let msg := if code = 404 then "Repository not found."
        else if code = 403 then
          "Access forbidden (likely private repo or GitHub API rate limit exceeded)."
        else "HTTP error " ++ natStr code ++ ": " ++ text
      { p with status := "failed", error := some msg }
  | .timeout => { p with status := "failed", error := some "Request timed out." }
  | .networkError msg =>
      let m := "Network or general request error for " ++ url ++ ": " ++ msg ++
        ". Handled as a failed project."
      { p with status := "failed", error := some m }
  | .unexpectedExn msg =>
      let m := "An unexpected critical error occurred during analysis of " ++ url ++ ": " ++ msg
      { p with status := "failed", error := some m }

/-- The loop body of `GitHubAnalyzerNode.exec` for one URL that matched the
pattern (nodes.py lines 224-301): initialise `project_data`, then run the
`try` block against the fetch outcome.  On metadata success the README outcome
fills `readme_content` / `error`, and `status` becomes `"success"`; any raised
exception is routed through `recordFetchExn`. -/
def analyzeOne (url owner repo : String) (f : FetchResult) : Project :=
  let base : Project := { url := url, owner := owner, repo_name := repo, status := "pending" }
  match f with
  | .ok meta readme =>
    let p := { base with description := meta.description, stars := meta.stars, fork := meta.fork }
    let p :=
      match readme with
      | .okBase64 c => { p with readme_content := some c }
      | .badFormat => { p with error := some "README content not in expected format." }
      | .notFound => { p with error := some "README.md not found." }
      | .httpOther code =>
          { p with error := some ("Failed to fetch README: HTTP Status " ++ natStr code ++ ".") }
    { p with status := "success" }
  | .exnAtRepo e => recordFetchExn base url e
  | .exnAtReadme meta e =>
    let p := { base with description := meta.description, stars := meta.stars, fork := meta.fork }
    recordFetchExn p url e

/-- One iteration of the `GitHubAnalyzerNode.exec` loop: `none` models the
`continue` taken for a URL that does not match the owner/repo pattern
(nodes.py lines 215-218). -/
def analyzeURL (url : String) (fetch : String → FetchResult) : Option Project :=
  match parseOwnerRepo url with
  | none => none
  | some (o, r) => some (analyzeOne url o r (fetch url))

/-- `GitHubAnalyzerNode.exec` (nodes.py lines 202-302): process the URLs in
input order, skipping URLs that do not match the owner/repo pattern, and
append one result record per processed URL. -/
def githubAnalyzerExec (urls : List String) (fetch : String → FetchResult) : List Project :=
  urls.filterMap (fun url => analyzeURL url fetch)

/-! ## LLMSummarizerNode

`exec` (nodes.py lines 313-345) walks the analyzed projects in order.  The
LLM collaborator `utils/call_llm.py` either returns a summary string or raises
(connection error, non-200 status, parse error); it is modelled as an oracle
from the prompt to `Except String String`. -/

/-- The README-summarization prompt (nodes.py line 323). -/
def readmePrompt (content : String) : String :=
  "Summarize the following GitHub repository README content in 2-3 sentences, focusing on the project\x27s purpose and key features:\n\n" ++ content

/-- The description-summarization prompt (nodes.py line 326). -/
def descriptionPrompt (content : String) : String :=
  "Summarize the following project description in one concise sentence:\n\n" ++ content

/-- The loop body of `LLMSummarizerNode.exec` for one project (nodes.py lines
317-344).  The `try` around `call_llm` catches every exception and stores an
error text as the summary; failed projects get a `"Could not summarize:"`
summary (with `project['error'] or 'Analysis failed'`). -/
def summarizeUpdate (p : Project) (llm : String → Except String String) : Project :=
  if p.status = "success" then
    if pyTruthy p.readme_content then
      match llm (readmePrompt (p.readme_content.getD "")) with
      | .ok s => { p with summary := some s }
      | .error e => { p with summary := some ("Error generating summary from LLM: " ++ e) }
    else if pyTruthy p.description then
      match llm (descriptionPrompt (p.description.getD "")) with
      | .ok s => { p with summary := some s }
      | .error e => { p with summary := some ("Error generating summary from LLM: " ++ e) }
    else
      { p with summary := some "No content available to summarize for this project." }
  else
    let reason := if pyTruthy p.error then p.error.getD "" else "Analysis failed"
    { p with summary := some ("Could not summarize: " ++ reason) }

/-- `LLMSummarizerNode.exec` (nodes.py lines 313-345): per-item update of
every project in the batch, in order (each branch of the loop body appends the
project to `updated_projects`). -/
def llmSummarizerExec (projects : List Project) (llm : String → Except String String) :
    List Project :=
  projects.map (fun p => summarizeUpdate p llm)

/-! ## The shared Context

`main.py` seeds one `shared` dictionary that every node's `prep` reads and
every node's `post` writes.  The keys are fixed (main.py lines 62-71), so the
Context is modelled as a structure.  Crucially, the value stored under
`analyzed_github_projects` is a list of *the very dictionaries* that the
scoring stages mutate in place inside `exec`: because of this aliasing, the
state of the Context after such an `exec` has run (and before `post` runs)
already shows the new fields. -/

structure Ctx where
  resume_text : Option String := none
  github_project_urls : List String := []
  other_urls : List String := []
  analyzed_github_projects : List Project := []
  overall_candidate_metrics : Option Metrics := none
  candidate_report : Option String := none
deriving DecidableEq, Repr

/-- `ContributionNode.prep` (nodes.py lines 353-354): a pure read of
`shared.get("analyzed_github_projects", [])`. -/
def contributionPrep (c : Ctx) : List Project :=
  c.analyzed_github_projects

/-- The Context as observable after `ContributionNode.exec` has run and before
`ContributionNode.post` runs.  `exec` assigns
`project["scores"]["contribution_score"] = ...` on each project dictionary in
place; those dictionaries are the ones the Context's
`analyzed_github_projects` list references, so the Context already reflects
the update. -/
def contributionCtxAfterExec (c : Ctx) : Ctx :=
  { c with analyzed_github_projects := contributionExec c.analyzed_github_projects }

/-- `ContributionNode.post` (nodes.py lines 369-372): store the exec result
under `analyzed_github_projects`. -/
def contributionPost (c : Ctx) (execRes : List Project) : Ctx :=
  { c with analyzed_github_projects := execRes }

/-- The Context as observable after `LLMSummarizerNode.exec` has run and
before its `post` runs: `exec` assigns `project["summary"]` in place on the
aliased project dictionaries. -/
def llmSummarizerCtxAfterExec (c : Ctx) (llm : String → Except String String) : Ctx :=
  { c with analyzed_github_projects := llmSummarizerExec c.analyzed_github_projects llm }

/-! ## Fan-in URL consolidation

Modelled from the spec: no consolidation stage exists under `src/` —
`flow.py` wires a strictly linear chain and no node merges the resume-derived
URL list with a profile-derived one (`main.py` only declares
`github_project_urls` as "the final consolidated list" and accepts a
`--profile` argument that no node consumes).  Following spec §4.3, the merge
takes the union of the two lists by normalized-URL identity, keeps the first
occurrence of each identity, and preserves insertion order; normalization
supplies the `https://` scheme when missing, as the extraction stage does. -/

/-- Modelled from the spec: the canonical identity key of a URL — the URL with
the `https://` scheme supplied when no scheme is present (spec §4.3, "union by
a canonical identity key (here, a normalized URL)"). -/
def normalizeURL (u : String) : String :=
  if u.data.take 4 = ("http".data) then u else "https://" ++ u

/-- Whether `acc` already holds a URL with the same normalized identity. -/
def containsNorm (acc : List String) (u : String) : Bool :=
  acc.any (fun v => normalizeURL v = normalizeURL u)

/-- Insert a URL unless a URL with the same normalized identity is already
present. -/
def insertURL (acc : List String) (u : String) : List String :=
  if containsNorm acc u then acc else acc ++ [u]

/-- Modelled from the spec: the fan-in consolidation stage's `execute` —
union of the two independently-produced URL lists by normalized identity,
duplicates removed, insertion order preserved (spec §4.3, §8). -/
def mergeURLLists (a b : List String) : List String :=
  (a ++ b).foldl insertURL []

/-! ## Helper lemmas about `round2` -/

theorem round_mono {x y : ℚ} (h : x ≤ y) : round x ≤ round y := by
  rw [round_eq, round_eq]
  exact Int.floor_le_floor (by linarith)

theorem round2_intCast_le (n : ℤ) {q : ℚ} (h : (n : ℚ) ≤ q) : (n : ℚ) ≤ round2 q := by
  unfold round2
  have h1 : round ((n : ℚ) * 100) ≤ round (q * 100) := round_mono (by nlinarith)
  have h2 : round ((n : ℚ) * 100) = n * 100 := by
    have : ((n : ℚ) * 100) = ((n * 100 : ℤ) : ℚ) := by push_cast; ring
    rw [this, round_intCast]
  rw [h2] at h1
  have h4 : ((n * 100 : ℤ) : ℚ) ≤ ((round (q * 100) : ℤ) : ℚ) := by exact_mod_cast h1
  push_cast at h4
  linarith

theorem round2_le_intCast (n : ℤ) {q : ℚ} (h : q ≤ (n : ℚ)) : round2 q ≤ (n : ℚ) := by
  unfold round2
  have h1 : round (q * 100) ≤ round ((n : ℚ) * 100) := round_mono (by nlinarith)
  have h2 : round ((n : ℚ) * 100) = n * 100 := by
    have : ((n : ℚ) * 100) = ((n * 100 : ℤ) : ℚ) := by push_cast; ring
    rw [this, round_intCast]
  rw [h2] at h1
  have : ((round (q * 100) : ℤ) : ℚ) ≤ (n : ℚ) * 100 := by exact_mod_cast h1
  linarith [this]

theorem round2_natCast_exact (s : ℕ) : round2 ((s : ℚ) / 100) = (s : ℚ) / 100 := by
  unfold round2
  have h : (s : ℚ) / 100 * 100 = (s : ℚ) := by field_simp
  rw [h, round_natCast]
  push_cast
  ring

/-! ## Claim theorems -/

/-- Claim C4: given empty input lists, every per-item transform stage returns
an empty output list without failing, `CandidateAggregationNode.exec` returns
an overall score of `0.0` with `num_successful_projects = 0`, and
`EloRankingNode.exec` maps that to the documented minimum rating
`elo_score = 800`. -/
theorem c4_degenerate_empty_input :
    (∀ fetch, githubAnalyzerExec [] fetch = []) ∧
    (∀ llm, llmSummarizerExec [] llm = []) ∧
    contributionExec [] = [] ∧
    (∀ rand, originalityExec [] rand = []) ∧
    trustHeuristicExec [] = [] ∧
    candidateAggregationExec [] =
      { overall_candidate_score := 0, num_successful_projects := 0 } ∧
    (eloRankingExec (candidateAggregationExec [])).elo_score = some 800 := by
  refine ⟨fun _ => rfl, fun _ => rfl, rfl, fun _ => rfl, rfl, ?_, ?_⟩
  · simp [candidateAggregationExec, successfulTrustScores]
    norm_num [round2, round_eq]
  · simp [eloRankingExec, candidateAggregationExec, successfulTrustScores]
    norm_num [round2, round_eq]

/-- Claim C5: for an input of exactly two analyzed projects — one with status
`"success"` carrying a (two-decimal) trust score `t` and one failed with
"Repository not found." — `CandidateAggregationNode.exec` returns
`num_successful_projects = 1` and an overall candidate score equal to `t`. -/
theorem c5_two_projects_one_success (p1 p2 : Project) (t : ℚ)
    (h1 : p1.status = "success") (ht : p1.scores.trust_score = some t)
    (hrt : round2 t = t)
    (h2 : p2.status = "failed") (_he : p2.error = some "Repository not found.") :
    (candidateAggregationExec [p1, p2]).num_successful_projects = 1 ∧
    (candidateAggregationExec [p1, p2]).overall_candidate_score = t := by
  have hs : successfulTrustScores [p1, p2] = [t] := by
    simp [successfulTrustScores, h1, ht, h2]
  refine ⟨by simp [candidateAggregationExec, hs], ?_⟩
  simp [candidateAggregationExec, hs, hrt]

/-- Concrete instance of the two-project aggregation scenario: a successful
project with trust score `56.1` and a "Repository not found." failure. -/
def c5proj1 : Project :=
  { url := "https://github.com/octocat/Spoon-Knife", status := "success",
    scores := { trust_score := some (561/10) } }

/-- The failed project of the C5 scenario. -/
def c5proj2 : Project :=
  { url := "https://github.com/org/some-library", status := "failed",
    error := some "Repository not found." }

theorem c5_witness :
    (candidateAggregationExec [c5proj1, c5proj2]).num_successful_projects = 1 ∧
    (candidateAggregationExec [c5proj1, c5proj2]).overall_candidate_score = 561/10 :=
  c5_two_projects_one_success c5proj1 c5proj2 (561/10) rfl rfl
    (by norm_num [round2, round_eq]) rfl rfl

/-- Claim C8: `ContributionNode.exec` maps each project to its updated record;
a project with status `"success"` and star count `s` gets
`contribution_score = min(100, round(s / 100, 2))`, and a project with any
other status gets `contribution_score = 0`. -/
theorem c8_contribution_score (ps : List Project) (p : Project) (hmem : p ∈ ps) :
    contributionUpdate p ∈ contributionExec ps ∧
    (p.status = "success" →
      (contributionUpdate p).scores.contribution_score =
        some (min 100 (round2 ((p.stars : ℚ) / 100)))) ∧
    (p.status ≠ "success" →
      (contributionUpdate p).scores.contribution_score = some 0) := by
  refine ⟨List.mem_map_of_mem _ hmem, ?_, ?_⟩ <;>
    intro h <;> simp [contributionUpdate, h]

/-- A successful project with 1234 stars, for the C8 witness. -/
def c8proj : Project :=
  { url := "https://github.com/openai/openai-python", status := "success", stars := 1234 }

theorem c8_witness :
    (contributionUpdate c8proj).scores.contribution_score = some (617/50) := by
  have h := (c8_contribution_score [c8proj] c8proj (by simp)).2.1 rfl
  rw [h]
  rw [min_def]
  norm_num [round2, round_eq, c8proj]

/-! ### Structural lemmas about the analyzer and summarizer -/

theorem analyzeOne_url (url o r : String) (f : FetchResult) :
    (analyzeOne url o r f).url = url := by
  cases f with
  | ok meta readme => cases readme <;> rfl
  | exnAtRepo e => cases e <;> rfl
  | exnAtReadme meta e => cases e <;> rfl

theorem analyzeOne_classified (url o r : String) (f : FetchResult)
    (hf : classifiedFailure f) :
    (analyzeOne url o r f).status = "failed" ∧ (analyzeOne url o r f).error.isSome := by
  cases f with
  | ok meta readme => exact absurd hf (by simp [classifiedFailure])
  | exnAtRepo e =>
      cases e <;> simp_all [analyzeOne, recordFetchExn, classifiedFailure]
  | exnAtReadme meta e =>
      cases e <;> simp_all [analyzeOne, recordFetchExn, classifiedFailure]

theorem analyzeURL_eq_some {u : String} {fetch : String → FetchResult} {p : Project}
    (h : analyzeURL u fetch = some p) :
    ∃ o r, parseOwnerRepo u = some (o, r) ∧ p = analyzeOne u o r (fetch u) := by
  unfold analyzeURL at h
  cases hpr : parseOwnerRepo u with
  | none => rw [hpr] at h; cases h
  | some pr =>
      obtain ⟨o, r⟩ := pr
      rw [hpr] at h
      exact ⟨o, r, rfl, (Option.some_inj.mp h).symm⟩

theorem analyzeURL_some_of_isSome {u : String} (fetch : String → FetchResult)
    (h : (parseOwnerRepo u).isSome) : ∃ p, analyzeURL u fetch = some p := by
  unfold analyzeURL
  cases hpr : parseOwnerRepo u with
  | none => rw [hpr] at h; cases h
  | some pr => obtain ⟨o, r⟩ := pr; exact ⟨_, rfl⟩

theorem githubAnalyzerExec_cons_some {u : String} {us : List String}
    {fetch : String → FetchResult} {p : Project} (h : analyzeURL u fetch = some p) :
    githubAnalyzerExec (u :: us) fetch = p :: githubAnalyzerExec us fetch := by
  simp [githubAnalyzerExec, List.filterMap_cons, h]

theorem githubAnalyzerExec_getElem (urls : List String) (fetch : String → FetchResult)
    (hwf : ∀ u ∈ urls, (parseOwnerRepo u).isSome) (i : ℕ) :
    (githubAnalyzerExec urls fetch)[i]? = (urls[i]?).bind (fun u => analyzeURL u fetch) := by
  induction urls generalizing i with
  | nil => simp [githubAnalyzerExec]
  | cons u us ih =>
      obtain ⟨p, hp⟩ := analyzeURL_some_of_isSome fetch (hwf u (by simp))
      rw [githubAnalyzerExec_cons_some hp]
      cases i with
      | zero => simp [hp]
      | succ j => simpa using ih (fun v hv => hwf v (by simp [hv])) j

theorem githubAnalyzerExec_length (urls : List String) (fetch : String → FetchResult)
    (hwf : ∀ u ∈ urls, (parseOwnerRepo u).isSome) :
    (githubAnalyzerExec urls fetch).length = urls.length := by
  induction urls with
  | nil => rfl
  | cons u us ih =>
      obtain ⟨p, hp⟩ := analyzeURL_some_of_isSome fetch (hwf u (by simp))
      rw [githubAnalyzerExec_cons_some hp]
      simpa using ih (fun v hv => hwf v (by simp [hv]))

theorem summarizeUpdate_eq (p : Project) (llm : String → Except String String) :
    ∃ s, summarizeUpdate p llm = { p with summary := some s } := by
  unfold summarizeUpdate
  split
  · split
    · split <;> exact ⟨_, rfl⟩
    · split
      · split <;> exact ⟨_, rfl⟩
      · exact ⟨_, rfl⟩
  · exact ⟨_, rfl⟩

theorem summarizeUpdate_url (p : Project) (llm : String → Except String String) :
    (summarizeUpdate p llm).url = p.url := by
  obtain ⟨s, hs⟩ := summarizeUpdate_eq p llm
  rw [hs]

theorem githubAnalyzerExec_map_url (urls : List String) (fetch : String → FetchResult) :
    (githubAnalyzerExec urls fetch).map Project.url =
      urls.filter (fun u => (parseOwnerRepo u).isSome) := by
  induction urls with
  | nil => rfl
  | cons u us ih =>
      cases hpr : parseOwnerRepo u with
      | none =>
          have h0 : analyzeURL u fetch = none := by unfold analyzeURL; rw [hpr]
          simpa [githubAnalyzerExec, List.filterMap_cons, h0, List.filter_cons, hpr]
            using ih
      | some pr =>
          obtain ⟨o, r⟩ := pr
          have h0 : analyzeURL u fetch = some (analyzeOne u o r (fetch u)) := by
            unfold analyzeURL; rw [hpr]
          simpa [githubAnalyzerExec, List.filterMap_cons, h0, List.filter_cons, hpr,
            analyzeOne_url] using ih

theorem githubAnalyzerExec_congr (urls : List String) (fetch fetch2 : String → FetchResult)
    (h : ∀ u ∈ urls, fetch u = fetch2 u) :
    githubAnalyzerExec urls fetch = githubAnalyzerExec urls fetch2 := by
  unfold githubAnalyzerExec
  apply List.filterMap_congr
  intro u hu
  unfold analyzeURL
  rw [h u hu]

theorem llmSummarizerExec_map_url (projects : List Project)
    (llm : String → Except String String) :
    (llmSummarizerExec projects llm).map Project.url = projects.map Project.url := by
  unfold llmSummarizerExec
  rw [List.map_map]
  exact List.map_congr_left (fun p _ => summarizeUpdate_url p llm)

/-- Claim C3: for a batch of well-formed GitHub URLs, the analyzer produces one
result record per URL, the record at each position is exactly the analysis of
the URL at that position (so one item's failure never prevents subsequent items
from being processed), and every item whose fetch ends in a classified failure
(HTTP error, timeout, network error) is recorded with status `"failed"` and an
error message while the batch continues. -/
theorem c3_classified_failure_batch_isolation (urls : List String)
    (fetch : String → FetchResult) (hwf : ∀ u ∈ urls, (parseOwnerRepo u).isSome) :
    (githubAnalyzerExec urls fetch).length = urls.length ∧
    (∀ i : ℕ, (githubAnalyzerExec urls fetch)[i]? =
      (urls[i]?).bind (fun u => analyzeURL u fetch)) ∧
    (∀ u ∈ urls, classifiedFailure (fetch u) →
      ∃ p ∈ githubAnalyzerExec urls fetch,
        p.url = u ∧ p.status = "failed" ∧ p.error.isSome) := by
  refine ⟨githubAnalyzerExec_length urls fetch hwf,
    githubAnalyzerExec_getElem urls fetch hwf, ?_⟩
  intro u hu hcf
  obtain ⟨p, hp⟩ := analyzeURL_some_of_isSome fetch (hwf u hu)
  obtain ⟨o, r, _hor, hpe⟩ := analyzeURL_eq_some hp
  refine ⟨p, List.mem_filterMap.mpr ⟨u, hu, hp⟩, ?_, ?_, ?_⟩
  · rw [hpe]; exact analyzeOne_url u o r (fetch u)
  · rw [hpe]; exact (analyzeOne_classified u o r (fetch u) hcf).1
  · rw [hpe]; exact (analyzeOne_classified u o r (fetch u) hcf).2

/-- The C3 scenario: a URL that 404s followed by a URL that resolves. -/
def c3urls : List String :=
  ["https://github.com/org/some-library", "https://github.com/octocat/Spoon-Knife"]

/-- Network oracle for the C3 scenario. -/
def c3fetch : String → FetchResult := fun u =>
  if u = "https://github.com/org/some-library" then .exnAtRepo (.httpError 404 "")
  else .ok { stars := 80 } (.okBase64 "Spoon-Knife readme")

theorem c3_witness :
    (githubAnalyzerExec c3urls c3fetch).length = c3urls.length ∧
    ∃ p ∈ githubAnalyzerExec c3urls c3fetch,
      p.url = "https://github.com/org/some-library" ∧
      p.status = "failed" ∧ p.error.isSome := by
  obtain ⟨h1, _, h3⟩ := c3_classified_failure_batch_isolation c3urls c3fetch (by decide)
  exact ⟨h1, h3 _ (by decide) (by decide)⟩

/-- Claim C7: batch stages emit their outputs in input order — the analyzer
output's URLs are exactly the well-formed input URLs in order, the summarizer
preserves the item order — and with extensionally equal collaborator responses
the outputs are identical. -/
theorem c7_order_and_determinism (urls : List String) (fetch : String → FetchResult)
    (projects : List Project) (llm : String → Except String String) :
    ((githubAnalyzerExec urls fetch).map Project.url =
      urls.filter (fun u => (parseOwnerRepo u).isSome)) ∧
    ((llmSummarizerExec projects llm).map Project.url = projects.map Project.url) ∧
    (∀ fetch2 : String → FetchResult, (∀ u ∈ urls, fetch u = fetch2 u) →
      githubAnalyzerExec urls fetch = githubAnalyzerExec urls fetch2) ∧
    (∀ llm2 : String → Except String String, (∀ s, llm s = llm2 s) →
      llmSummarizerExec projects llm = llmSummarizerExec projects llm2) := by
  refine ⟨githubAnalyzerExec_map_url urls fetch, llmSummarizerExec_map_url projects llm,
    fun fetch2 h => githubAnalyzerExec_congr urls fetch fetch2 h, fun llm2 h => ?_⟩
  have : llm = llm2 := funext h
  rw [this]

theorem c7_witness :
    (githubAnalyzerExec c3urls c3fetch).map Project.url = c3urls := by
  have h := (c7_order_and_determinism c3urls c3fetch [] (fun _ => .error "")).1
  rw [h]
  decide

/-- The C2 scenario: the first URL's fetch raises an unexpected (unclassified)
exception; the second resolves normally. -/
def c2urls : List String :=
  ["https://github.com/org/some-library", "https://github.com/octocat/Spoon-Knife"]

/-- Network oracle for the C2 scenario. -/
def c2fetch : String → FetchResult := fun u =>
  if u = "https://github.com/org/some-library" then .exnAtRepo (.unexpectedExn "boom")
  else .ok { stars := 80 } .notFound

/-- Claim C2 counterexample: an unexpected exception raised during
`GitHubAnalyzerNode.exec` does NOT propagate out of the stage and does NOT
abort the remainder — the catch-all `except Exception` (nodes.py lines
295-299) records it in the per-item result (status `"failed"`, critical-error
message) and the loop continues: the second item still comes out with status
`"success"`. -/
theorem c2_counterexample :
    (githubAnalyzerExec c2urls c2fetch).map Project.status = ["failed", "success"] ∧
    ((githubAnalyzerExec c2urls c2fetch).head?.map Project.error) =
      some (some ("An unexpected critical error occurred during analysis of " ++
        "https://github.com/org/some-library" ++ ": boom")) := by
  constructor <;> decide

/-- Claim C2 (amended): every exception raised inside the per-item bodies of
`GitHubAnalyzerNode.exec` and `LLMSummarizerNode.exec` — the unclassified
catch-all case included — is caught locally and recorded in the per-item
result, and the batch continues: the analyzer output length depends only on
URL well-formedness (never on fetch outcomes), an item whose fetch raised an
unexpected exception appears in the output as a `"failed"` record carrying the
critical-error message, and the summarizer always records a summary string. -/
theorem c2_amended_unexpected_caught_locally (urls : List String)
    (fetch : String → FetchResult) :
    ((githubAnalyzerExec urls fetch).length =
      (urls.filter (fun u => (parseOwnerRepo u).isSome)).length) ∧
    (∀ u ∈ urls, ∀ o r, parseOwnerRepo u = some (o, r) →
      ∀ msg, fetch u = .exnAtRepo (.unexpectedExn msg) →
        ∃ p ∈ githubAnalyzerExec urls fetch, p.url = u ∧ p.status = "failed" ∧
          p.error = some ("An unexpected critical error occurred during analysis of " ++
            u ++ ": " ++ msg)) ∧
    (∀ (p : Project) (llm : String → Except String String),
      (summarizeUpdate p llm).summary.isSome) := by
  refine ⟨?_, ?_, ?_⟩
  · have h := congrArg List.length (githubAnalyzerExec_map_url urls fetch)
    simpa using h
  · intro u hu o r hor msg hf
    have hp : analyzeURL u fetch = some (analyzeOne u o r (fetch u)) := by
      unfold analyzeURL; rw [hor]
    refine ⟨analyzeOne u o r (fetch u), List.mem_filterMap.mpr ⟨u, hu, hp⟩, ?_, ?_, ?_⟩
    · exact analyzeOne_url u o r (fetch u)
    · rw [hf]; rfl
    · rw [hf]; rfl
  · intro p llm
    obtain ⟨s, hs⟩ := summarizeUpdate_eq p llm
    rw [hs]
    rfl

theorem c2_amended_witness :
    ∃ p ∈ githubAnalyzerExec c2urls c2fetch,
      p.url = "https://github.com/org/some-library" ∧ p.status = "failed" ∧
      p.error = some ("An unexpected critical error occurred during analysis of " ++
        "https://github.com/org/some-library" ++ ": boom") := by
  have h := (c2_amended_unexpected_caught_locally c2urls c2fetch).2.1
  exact h _ (by decide) "org" "some-library" (by decide) "boom" (by decide)

/-! ### C6: what exec really does to the Context -/

/-- A project record with the field written by `ContributionNode.exec`
blanked, for frame statements. -/
def eraseContribution (p : Project) : Project :=
  { p with scores := { p.scores with contribution_score := none } }

/-- A project record with the field written by `LLMSummarizerNode.exec`
blanked, for frame statements. -/
def eraseSummary (p : Project) : Project :=
  { p with summary := none }

theorem eraseContribution_contributionUpdate (p : Project) :
    eraseContribution (contributionUpdate p) = eraseContribution p := by
  unfold contributionUpdate eraseContribution
  split <;> rfl

theorem eraseSummary_summarizeUpdate (p : Project) (llm : String → Except String String) :
    eraseSummary (summarizeUpdate p llm) = eraseSummary p := by
  obtain ⟨s, hs⟩ := summarizeUpdate_eq p llm
  rw [hs]
  rfl

/-- A Context holding one successfully analyzed (not yet scored) project. -/
def c6ctx : Ctx :=
  { analyzed_github_projects :=
      [{ url := "https://github.com/octocat/Spoon-Knife", status := "success" }] }

/-- Claim C6 counterexample: the Context is NOT left unchanged by the execute
step.  `ContributionNode.exec` assigns into the project dictionaries that the
Context's `analyzed_github_projects` list references, so after `exec` (and
before `post`) the Context has changed: on a Context holding one successful
project, the reachable project gains a `contribution_score` key. -/
theorem c6_counterexample : contributionCtxAfterExec c6ctx ≠ c6ctx := by
  intro h
  have h2 := congrArg
    (fun c => c.analyzed_github_projects.map (fun p => p.scores.contribution_score.isSome)) h
  simp [contributionCtxAfterExec, c6ctx, contributionExec, contributionUpdate] at h2

/-- Claim C6 (amended): `prep` is a pure read; `exec` of the summarizer and
scoring stages mutates only the stage's own field of the project records
reachable from the Context (summary, resp. contribution score), leaving every
other Context key and every other project field unchanged; and `post` merely
rebinds the stage's output key to the records `exec` already mutated in
place. -/
theorem c6_amended_exec_mutation_frame (c : Ctx) (llm : String → Except String String) :
    contributionPrep c = c.analyzed_github_projects ∧
    (contributionCtxAfterExec c).resume_text = c.resume_text ∧
    (contributionCtxAfterExec c).github_project_urls = c.github_project_urls ∧
    (contributionCtxAfterExec c).other_urls = c.other_urls ∧
    (contributionCtxAfterExec c).overall_candidate_metrics = c.overall_candidate_metrics ∧
    (contributionCtxAfterExec c).candidate_report = c.candidate_report ∧
    ((contributionCtxAfterExec c).analyzed_github_projects.map eraseContribution =
      c.analyzed_github_projects.map eraseContribution) ∧
    ((llmSummarizerCtxAfterExec c llm).analyzed_github_projects.map eraseSummary =
      c.analyzed_github_projects.map eraseSummary) ∧
    contributionPost c (contributionExec (contributionPrep c)) = contributionCtxAfterExec c := by
  refine ⟨rfl, rfl, rfl, rfl, rfl, rfl, ?_, ?_, rfl⟩
  · show (contributionExec c.analyzed_github_projects).map eraseContribution = _
    unfold contributionExec
    rw [List.map_map]
    exact List.map_congr_left (fun p _ => eraseContribution_contributionUpdate p)
  · show (llmSummarizerExec c.analyzed_github_projects llm).map eraseSummary = _
    unfold llmSummarizerExec
    rw [List.map_map]
    exact List.map_congr_left (fun p _ => eraseSummary_summarizeUpdate p llm)

/-! ### C1: properties of the fan-in merge -/

theorem containsNorm_iff (acc : List String) (u : String) :
    containsNorm acc u = true ↔ ∃ v ∈ acc, normalizeURL v = normalizeURL u := by
  simp [containsNorm]

theorem insertURL_exists (acc : List String) (x u : String) :
    (∃ v ∈ insertURL acc x, normalizeURL v = normalizeURL u) ↔
      (∃ v ∈ acc, normalizeURL v = normalizeURL u) ∨ normalizeURL x = normalizeURL u := by
  unfold insertURL
  by_cases h : containsNorm acc x = true
  · rw [if_pos h]
    constructor
    · exact Or.inl
    · rintro (hacc | hx)
      · exact hacc
      · obtain ⟨v, hv, hvx⟩ := (containsNorm_iff acc x).mp h
        exact ⟨v, hv, hvx.trans hx⟩
  · rw [if_neg h]
    simp only [List.mem_append, List.mem_singleton]
    constructor
    · rintro ⟨v, hv | rfl, hvu⟩
      · exact Or.inl ⟨v, hv, hvu⟩
      · exact Or.inr hvu
    · rintro (⟨v, hv, hvu⟩ | hx)
      · exact ⟨v, Or.inl hv, hvu⟩
      · exact ⟨x, Or.inr rfl, hx⟩

theorem foldl_insertURL_exists (l : List String) (acc : List String) (u : String) :
    (∃ v ∈ l.foldl insertURL acc, normalizeURL v = normalizeURL u) ↔
      (∃ v ∈ acc, normalizeURL v = normalizeURL u) ∨
      (∃ v ∈ l, normalizeURL v = normalizeURL u) := by
  induction l generalizing acc with
  | nil => simp
  | cons x xs ih =>
      rw [List.foldl_cons, ih, insertURL_exists]
      simp only [List.mem_cons]
      constructor
      · rintro ((hacc | hx) | hxs)
        · exact Or.inl hacc
        · exact Or.inr ⟨x, Or.inl rfl, hx⟩
        · obtain ⟨v, hv, hvu⟩ := hxs
          exact Or.inr ⟨v, Or.inr hv, hvu⟩
      · rintro (hacc | ⟨v, rfl | hv, hvu⟩)
        · exact Or.inl (Or.inl hacc)
        · exact Or.inl (Or.inr hvu)
        · exact Or.inr ⟨v, hv, hvu⟩

theorem foldl_insertURL_nodup (l : List String) (acc : List String)
    (hacc : (acc.map normalizeURL).Nodup) :
    ((l.foldl insertURL acc).map normalizeURL).Nodup := by
  induction l generalizing acc with
  | nil => simpa
  | cons x xs ih =>
      rw [List.foldl_cons]
      apply ih
      unfold insertURL
      by_cases h : containsNorm acc x = true
      · rwa [if_pos h]
      · rw [if_neg h]
        have hnot : normalizeURL x ∉ acc.map normalizeURL := by
          intro hmem
          obtain ⟨v, hv, hvx⟩ := List.mem_map.mp hmem
          exact h ((containsNorm_iff acc x).mpr ⟨v, hv, hvx⟩)
        simp only [List.map_append, List.map_cons, List.map_nil]
        rw [List.nodup_append]
        exact ⟨hacc, List.nodup_singleton _, by
          intro a ha hb
          simp only [List.mem_singleton] at hb
          exact hnot (hb ▸ ha)⟩

theorem foldl_insertURL_saturated (l : List String) (acc : List String)
    (h : ∀ u ∈ l, containsNorm acc u = true) :
    l.foldl insertURL acc = acc := by
  induction l with
  | nil => rfl
  | cons x xs ih =>
      rw [List.foldl_cons]
      unfold insertURL
      rw [if_pos (h x (by simp))]
      exact ih (fun u hu => h u (by simp [hu]))

theorem foldl_insertURL_of_nodup (m : List String) (acc : List String)
    (h : (((acc ++ m).map normalizeURL)).Nodup) :
    m.foldl insertURL acc = acc ++ m := by
  induction m generalizing acc with
  | nil => simp
  | cons x xs ih =>
      have hx : containsNorm acc x ≠ true := by
        intro hc
        obtain ⟨v, hv, hvx⟩ := (containsNorm_iff acc x).mp hc
        have h1 : normalizeURL x ∈ ((x :: xs).map normalizeURL) := by simp
        have h2 : normalizeURL v ∈ (acc.map normalizeURL) := List.mem_map_of_mem _ hv
        rw [List.map_append, List.nodup_append] at h
        rw [← hvx] at h1
        exact h.2.2 h2 h1
      rw [List.foldl_cons]
      unfold insertURL
      rw [if_neg hx]
      have := ih (acc ++ [x]) (by simpa [List.append_assoc] using h)
      simpa [List.append_assoc] using this

theorem mergeURLLists_nodup (a b : List String) :
    ((mergeURLLists a b).map normalizeURL).Nodup :=
  foldl_insertURL_nodup (a ++ b) [] (by simp)

theorem mergeURLLists_exists (a b : List String) (u : String) :
    (∃ v ∈ mergeURLLists a b, normalizeURL v = normalizeURL u) ↔
      (∃ v ∈ a, normalizeURL v = normalizeURL u) ∨
      (∃ v ∈ b, normalizeURL v = normalizeURL u) := by
  unfold mergeURLLists
  rw [foldl_insertURL_exists]
  simp [List.mem_append, or_and_right, exists_or]

/-- Claim C1 (spec-modelled; no consolidation stage exists under `src/`): the
fan-in merge of two URL lists returns their union by normalized-URL identity
with duplicates removed exactly once — on the scenario lists
`[u1, u2]` and `[u2, u3]` it yields exactly `[u1, u2, u3]` — the merge is
commutative up to that identity (merging A with B yields the same final set as
merging B with A), and merging a consolidated list with itself changes
nothing. -/
theorem c1_fanin_merge :
    (mergeURLLists
        ["https://github.com/a/u1", "https://github.com/a/u2"]
        ["https://github.com/a/u2", "https://github.com/a/u3"] =
      ["https://github.com/a/u1", "https://github.com/a/u2", "https://github.com/a/u3"]) ∧
    (∀ a b u, (∃ v ∈ mergeURLLists a b, normalizeURL v = normalizeURL u) ↔
      (∃ v ∈ a, normalizeURL v = normalizeURL u) ∨
      (∃ v ∈ b, normalizeURL v = normalizeURL u)) ∧
    (∀ a b, ((mergeURLLists a b).map normalizeURL).Nodup) ∧
    (∀ a b u, (∃ v ∈ mergeURLLists a b, normalizeURL v = normalizeURL u) ↔
      (∃ v ∈ mergeURLLists b a, normalizeURL v = normalizeURL u)) ∧
    (∀ a b, mergeURLLists (mergeURLLists a b) (mergeURLLists a b) = mergeURLLists a b) := by
  refine ⟨by decide, mergeURLLists_exists, mergeURLLists_nodup, ?_, ?_⟩
  · intro a b u
    rw [mergeURLLists_exists, mergeURLLists_exists, or_comm]
  · intro a b
    set m := mergeURLLists a b with hm
    have hnd : (m.map normalizeURL).Nodup := mergeURLLists_nodup a b
    unfold mergeURLLists
    have h1 : m.foldl insertURL [] = m := by
      have := foldl_insertURL_of_nodup m [] (by simpa using hnd)
      simpa using this
    rw [List.foldl_append, h1]
    exact foldl_insertURL_saturated m m
      (fun u hu => (containsNorm_iff m u).mpr ⟨u, hu, rfl⟩)

/-! ### C10: score invariants through the scoring stages -/

theorem round2_nonneg {q : ℚ} (h : 0 ≤ q) : 0 ≤ round2 q := by
  have h2 : ((0 : ℤ) : ℚ) ≤ q := by exact_mod_cast h
  have h3 := round2_intCast_le 0 h2
  simpa using h3

theorem round2_le_hundred {q : ℚ} (h : q ≤ 100) : round2 q ≤ 100 := by
  have h2 : q ≤ ((100 : ℤ) : ℚ) := by exact_mod_cast h
  have h3 := round2_le_intCast 100 h2
  simpa using h3

theorem contributionUpdate_bounds (p : Project) :
    ∃ cs, (contributionUpdate p).scores.contribution_score = some cs ∧
      0 ≤ cs ∧ cs ≤ 100 := by
  unfold contributionUpdate
  split
  · refine ⟨_, rfl, ?_, min_le_left _ _⟩
    refine le_min (by norm_num) ?_
    rw [round2_natCast_exact]
    positivity
  · exact ⟨0, rfl, le_refl 0, by norm_num⟩

theorem originalityUpdate_status (p : Project) (r : ℤ) :
    (originalityUpdate p r).status = p.status := by
  unfold originalityUpdate
  split <;> rfl

theorem originalityUpdate_contribution (p : Project) (r : ℤ) :
    (originalityUpdate p r).scores.contribution_score = p.scores.contribution_score := by
  unfold originalityUpdate
  split <;> rfl

theorem originalityUpdate_orig_bounds (p : Project) (r : ℤ)
    (h30 : 30 ≤ r) (h70 : r ≤ 70) :
    ∃ os, (originalityUpdate p r).scores.originality_score = some os ∧
      0 ≤ os ∧ os ≤ 100 := by
  unfold originalityUpdate
  split
  · by_cases hf : p.fork
    · refine ⟨(r : ℚ), by simp [hf], ?_, ?_⟩
      · exact_mod_cast (by linarith : (0:ℤ) ≤ r)
      · exact_mod_cast (by linarith : r ≤ (100:ℤ))
    · exact ⟨100, by simp [hf], by norm_num, by norm_num⟩
  · exact ⟨0, rfl, le_refl 0, by norm_num⟩

theorem trustUpdate_bounds (p : Project)
    (hc0 : 0 ≤ p.scores.contribution_score.getD 0)
    (_hc1 : p.scores.contribution_score.getD 0 ≤ 100)
    (ho0 : 0 ≤ p.scores.originality_score.getD 0)
    (_ho1 : p.scores.originality_score.getD 0 ≤ 100) :
    ∃ t, (trustUpdate p).scores.trust_score = some t ∧ 0 ≤ t ∧ t ≤ 100 := by
  unfold trustUpdate
  split
  · dsimp only
    refine ⟨_, rfl, ?_, ?_⟩
    · apply round2_nonneg
      refine le_min (by norm_num) ?_
      have hb : (0:ℚ) ≤ (if trustBonusCond p then (30:ℚ) else 0) := by
        split <;> norm_num
      nlinarith
    · apply round2_le_hundred
      exact min_le_left _ _
  · exact ⟨0, rfl, le_refl 0, by norm_num⟩

theorem trust_chain_bounds (q : Project) (r : ℤ) (h30 : 30 ≤ r) (h70 : r ≤ 70) :
    ∃ t, (trustUpdate (originalityUpdate (contributionUpdate q) r)).scores.trust_score =
      some t ∧ 0 ≤ t ∧ t ≤ 100 := by
  obtain ⟨cs, hcs, hcs0, hcs1⟩ := contributionUpdate_bounds q
  obtain ⟨os, hos, hos0, hos1⟩ :=
    originalityUpdate_orig_bounds (contributionUpdate q) r h30 h70
  apply trustUpdate_bounds
  · rw [originalityUpdate_contribution, hcs]; simpa using hcs0
  · rw [originalityUpdate_contribution, hcs]; simpa using hcs1
  · rw [hos]; simpa using hos0
  · rw [hos]; simpa using hos1

/-- The three scoring stages in pipeline order (flow.py lines 35-38):
contribution, originality (fed by the random draws), then trust. -/
def scoringPipeline (ps : List Project) (rand : ℕ → ℤ) : List Project :=
  trustHeuristicExec (originalityExec (contributionExec ps) rand)

theorem scoringPipeline_mem {ps : List Project} {rand : ℕ → ℤ} {p : Project}
    (hp : p ∈ scoringPipeline ps rand) :
    ∃ i, ∃ _h : i < ps.length, ∃ q ∈ ps,
      p = trustUpdate (originalityUpdate (contributionUpdate q) (rand i)) := by
  unfold scoringPipeline trustHeuristicExec at hp
  obtain ⟨y, hy, rfl⟩ := List.mem_map.mp hp
  unfold originalityExec at hy
  rw [List.mapIdx_eq_ofFn] at hy
  obtain ⟨⟨i, hi⟩, hyi⟩ := (List.mem_ofFn _ _).mp hy
  have hi2 : i < ps.length := by simpa [contributionExec] using hi
  refine ⟨i, hi2, ps.get ⟨i, hi2⟩, List.get_mem ps i hi2, ?_⟩
  rw [← hyi]
  congr 1
  simp [contributionExec, List.get_eq_getElem]

theorem successfulTrustScores_bounds (l : List Project)
    (h : ∀ p ∈ l, ∀ t, p.scores.trust_score = some t → 0 ≤ t ∧ t ≤ 100) :
    ∀ t ∈ successfulTrustScores l, 0 ≤ t ∧ t ≤ 100 := by
  intro t ht
  obtain ⟨p, hp, hpt⟩ := List.mem_filterMap.mp ht
  by_cases hs : p.status = "success"
  · rw [if_pos hs] at hpt
    exact h p hp t hpt
  · rw [if_neg hs] at hpt
    cases hpt

theorem aggregation_overall_bounds (l : List Project)
    (h : ∀ t ∈ successfulTrustScores l, 0 ≤ t ∧ t ≤ 100) :
    0 ≤ (candidateAggregationExec l).overall_candidate_score ∧
      (candidateAggregationExec l).overall_candidate_score ≤ 100 := by
  unfold candidateAggregationExec
  dsimp only
  by_cases hne : successfulTrustScores l = []
  · rw [hne]
    simp only [ne_eq, not_true_eq_false, reduceIte]
    exact ⟨round2_nonneg (by norm_num), round2_le_hundred (by norm_num)⟩
  · rw [if_pos hne]
    have hlen : 0 < ((successfulTrustScores l).length : ℚ) := by
      have h1 : 0 < (successfulTrustScores l).length := List.length_pos.mpr hne
      exact_mod_cast h1
    have hsum0 : 0 ≤ (successfulTrustScores l).sum :=
      List.sum_nonneg (fun x hx => (h x hx).1)
    have hsum100 : (successfulTrustScores l).sum ≤
        ((successfulTrustScores l).length : ℚ) * 100 := by
      have h1 := List.sum_le_card_nsmul (successfulTrustScores l) 100
        (fun x hx => (h x hx).2)
      simpa [nsmul_eq_mul, mul_comm] using h1
    have h1 : 0 ≤ (successfulTrustScores l).sum / (successfulTrustScores l).length :=
      div_nonneg hsum0 hlen.le
    have h2 : (successfulTrustScores l).sum / (successfulTrustScores l).length ≤ 100 := by
      rw [div_le_iff₀ hlen]
      linarith
    exact ⟨round2_nonneg h1, round2_le_hundred h2⟩

theorem elo_bounds (m : Metrics) (h0 : 0 ≤ m.overall_candidate_score)
    (h100 : m.overall_candidate_score ≤ 100) :
    ∃ e, (eloRankingExec m).elo_score = some e ∧ 800 ≤ e ∧ e ≤ 2000 := by
  have hrw : 800 + m.overall_candidate_score / 100 * (2000 - 800) =
      800 + m.overall_candidate_score * 12 := by ring
  refine ⟨_, rfl, ?_, ?_⟩
  · have h2 : ((800:ℤ):ℚ) ≤ 800 + m.overall_candidate_score / 100 * (2000 - 800) := by
      rw [hrw]
      push_cast
      linarith
    have h3 := round2_intCast_le 800 h2
    simpa using h3
  · have h2 : 800 + m.overall_candidate_score / 100 * (2000 - 800) ≤ ((2000:ℤ):ℚ) := by
      rw [hrw]
      push_cast
      linarith
    have h3 := round2_le_intCast 2000 h2
    simpa using h3

/-- Claim C10: after the scoring stages run on any list of analyzed projects,
every project's trust score lies in `[0, 100]`, the aggregated overall
candidate score lies in `[0, 100]`, and the resulting Elo score lies in
`[800, 2000]`. -/
theorem c10_score_invariants (ps : List Project) (rand : ℕ → ℤ)
    (hr : ∀ i, 30 ≤ rand i ∧ rand i ≤ 70) :
    (∀ p ∈ scoringPipeline ps rand,
      ∃ t, p.scores.trust_score = some t ∧ 0 ≤ t ∧ t ≤ 100) ∧
    (0 ≤ (candidateAggregationExec (scoringPipeline ps rand)).overall_candidate_score ∧
      (candidateAggregationExec (scoringPipeline ps rand)).overall_candidate_score ≤ 100) ∧
    (∃ e, (eloRankingExec (candidateAggregationExec (scoringPipeline ps rand))).elo_score =
      some e ∧ 800 ≤ e ∧ e ≤ 2000) := by
  have hmem : ∀ p ∈ scoringPipeline ps rand,
      ∃ t, p.scores.trust_score = some t ∧ 0 ≤ t ∧ t ≤ 100 := by
    intro p hp
    obtain ⟨i, _hi, q, _hq, rfl⟩ := scoringPipeline_mem hp
    exact trust_chain_bounds q (rand i) (hr i).1 (hr i).2
  have hsts := successfulTrustScores_bounds (scoringPipeline ps rand) (by
    intro p hp t ht
    obtain ⟨t2, ht2, h0, h1⟩ := hmem p hp
    rw [ht] at ht2
    injection ht2 with ht3
    rw [ht3]
    exact ⟨h0, h1⟩)
  have hagg := aggregation_overall_bounds (scoringPipeline ps rand) hsts
  exact ⟨hmem, hagg, elo_bounds _ hagg.1 hagg.2⟩

/-- A concrete successful project for the C10 witness. -/
def c10proj : Project :=
  { url := "https://github.com/octocat/Spoon-Knife", status := "success",
    stars := 57, readme_content := some "readme", summary := some "a fine project" }

theorem c10_witness :
    ∃ e, (eloRankingExec (candidateAggregationExec
        (scoringPipeline [c10proj] (fun _ => 50)))).elo_score = some e ∧
      800 ≤ e ∧ e ≤ 2000 :=
  (c10_score_invariants [c10proj] (fun _ => 50)
    (fun _ => ⟨by norm_num, by norm_num⟩)).2.2

/-! ### C9: the report round trip

`ReportGenerationNode.exec` (nodes.py lines 494-548) renders the Context into
markdown.  The score values it embeds are Python `int`s or two-decimal
`float`s (every float the pipeline stores is produced by `round(x, 2)`), and
`str` renders them in the usual Python way.  Below: the value printers, the
renderer, an extraction parser, and the round-trip development. -/

/-- A numeric score value as stored in the Context: a Python `int`, or a
Python `float` exact at two decimals; `float c` denotes the value `c / 100`. -/
inductive ScoreVal where
  | int (z : ℤ)
  | float (c : ℤ)
deriving DecidableEq, Repr

/-- Python `str` of the fractional part of a two-decimal float, `f` in
hundredths (`f < 100`): `"0"` for a whole value, one digit when the hundredths
digit is zero (`str(0.5) = "0.5"`), two digits otherwise (`str(0.05)` ends in
`"05"`). -/
def fracStr (f : ℕ) : String :=
  if f = 0 then "0"
  else if f % 10 = 0 then natStr (f / 10)
  else if f < 10 then "0" ++ natStr f
  else natStr f

/-- Python `str` of the two-decimal float `c / 100`. -/
def pyFloatStr (c : ℤ) : String :=
  (if c < 0 then "-" else "") ++ natStr (c.natAbs / 100) ++ "." ++ fracStr (c.natAbs % 100)

/-- Python `str` of a score value. -/
def scoreValStr : ScoreVal → String
  | .int z => intStr z
  | .float c => pyFloatStr c

/-- Inverse of `digitCh`. -/
def charDigit (ch : Char) : ℕ := ch.toNat - 48

/-- Read back a base-10 digit string. -/
def natParse (cs : List Char) : ℕ := Nat.ofDigits 10 ((cs.map charDigit).reverse)

/-- Read back an optionally signed digit string. -/
def intParse (cs : List Char) : ℤ :=
  if cs.head? = some '-' then -(natParse (cs.drop 1) : ℤ) else (natParse cs : ℤ)

/-- Read back a one- or two-digit fraction string as hundredths. -/
def fracOf (fp : List Char) : ℕ :=
  if fp.length = 1 then 10 * charDigit (fp.headD '0')
  else 10 * charDigit (fp.headD '0') + charDigit ((fp.drop 1).headD '0')

/-- Read back a float from its integer-part and fraction-part strings. -/
def floatParse (ip fp : List Char) : ScoreVal :=
  if ip.head? = some '-' then .float (-((natParse (ip.drop 1) * 100 + fracOf fp : ℕ) : ℤ))
  else .float ((natParse ip * 100 + fracOf fp : ℕ) : ℤ)

/-- Read back a rendered score value: a string containing `.` is a two-decimal
float with a one- or two-digit fraction, anything else an integer. -/
def parseScoreVal (cs : List Char) : ScoreVal :=
  if '.' ∈ cs then
    floatParse (cs.takeWhile (fun c => c ≠ '.')) ((cs.dropWhile (fun c => c ≠ '.')).drop 1)
  else .int (intParse cs)

theorem digitCh_toNat {d : ℕ} (h : d < 10) : (digitCh d).toNat = 48 + d := by
  interval_cases d <;> decide

theorem charDigit_digitCh {d : ℕ} (h : d < 10) : charDigit (digitCh d) = d := by
  unfold charDigit
  rw [digitCh_toNat h]
  omega

theorem natStr_data_eq (n : ℕ) (h : n ≠ 0) :
    (natStr n).data = (Nat.digits 10 n).reverse.map digitCh := by
  unfold natStr
  rw [if_neg h]

theorem natStr_chars {n : ℕ} {c : Char} (hc : c ∈ (natStr n).data) :
    48 ≤ c.toNat ∧ c.toNat ≤ 57 := by
  by_cases h : n = 0
  · subst h
    have hc0 : c = '0' := by simpa [natStr] using hc
    subst hc0
    decide
  · rw [natStr_data_eq n h] at hc
    obtain ⟨d, hd, rfl⟩ := List.mem_map.mp hc
    have hd10 : d < 10 := Nat.digits_lt_base (by norm_num) (List.mem_reverse.mp hd)
    rw [digitCh_toNat hd10]
    omega

theorem natParse_natStr (n : ℕ) : natParse (natStr n).data = n := by
  by_cases h : n = 0
  · subst h; decide
  · rw [natStr_data_eq n h]
    unfold natParse
    rw [List.map_map]
    have hmap : ((Nat.digits 10 n).reverse.map (charDigit ∘ digitCh)) =
        (Nat.digits 10 n).reverse := by
      have h1 : ((Nat.digits 10 n).reverse.map (charDigit ∘ digitCh)) =
          (Nat.digits 10 n).reverse.map id :=
        List.map_congr_left (fun d hd =>
          charDigit_digitCh (Nat.digits_lt_base (by norm_num) (List.mem_reverse.mp hd)))
      rw [h1, List.map_id]
    rw [hmap, List.reverse_reverse]
    exact Nat.ofDigits_digits 10 n

theorem natStr_ne_nil (n : ℕ) : (natStr n).data ≠ [] := by
  by_cases h : n = 0
  · subst h; decide
  · rw [natStr_data_eq n h]
    simp [h, Nat.digits_ne_nil_iff_ne_zero]

theorem natStr_head_digit (n : ℕ) {c : Char} (h : (natStr n).data.head? = some c) :
    48 ≤ c.toNat ∧ c.toNat ≤ 57 :=
  natStr_chars (List.mem_of_mem_head? h)

theorem natStr_head_ne_minus (n : ℕ) : (natStr n).data.head? ≠ some '-' := by
  intro h
  have h2 := natStr_head_digit n h
  have h3 : ('-').toNat = 45 := rfl
  omega

theorem intParse_intStr (z : ℤ) : intParse (intStr z).data = z := by
  unfold intStr
  split
  · next hz =>
    have hdata : (("-" : String) ++ natStr z.natAbs).data = '-' :: (natStr z.natAbs).data := by
      rw [String.data_append]
      rfl
    rw [hdata]
    unfold intParse
    rw [if_pos (by rfl)]
    simp only [List.drop_succ_cons, List.drop_zero]
    rw [natParse_natStr]
    omega
  · next hz =>
    unfold intParse
    rw [if_neg (natStr_head_ne_minus z.natAbs), natParse_natStr]
    omega

theorem natStr_single (d : ℕ) (h1 : 0 < d) (h2 : d < 10) :
    (natStr d).data = [digitCh d] := by
  rw [natStr_data_eq d (by omega)]
  rw [Nat.digits_def' (by norm_num : 1 < 10) h1]
  rw [Nat.mod_eq_of_lt h2, Nat.div_eq_of_lt h2]
  simp

theorem natStr_two (f : ℕ) (h1 : 10 ≤ f) (h2 : f < 100) :
    (natStr f).data = [digitCh (f / 10), digitCh (f % 10)] := by
  rw [natStr_data_eq f (by omega)]
  rw [Nat.digits_def' (by norm_num : 1 < 10) (by omega : 0 < f)]
  rw [Nat.digits_def' (by norm_num : 1 < 10) (by omega : 0 < f / 10)]
  have h3 : f / 10 / 10 = 0 := by omega
  rw [h3]
  have h4 : f / 10 % 10 = f / 10 := Nat.mod_eq_of_lt (by omega)
  rw [h4]
  simp

theorem fracOf_singleton (a : Char) : fracOf [a] = 10 * charDigit a := by
  rfl

theorem fracOf_pair (a b : Char) : fracOf [a, b] = 10 * charDigit a + charDigit b := by
  rfl

theorem frac_parse (f : ℕ) (h : f < 100) : fracOf (fracStr f).data = f := by
  unfold fracStr
  by_cases h0 : f = 0
  · subst h0
    decide
  · rw [if_neg h0]
    by_cases h10 : f % 10 = 0
    · rw [if_pos h10]
      have h1 : 0 < f / 10 := by omega
      have h2 : f / 10 < 10 := by omega
      rw [natStr_single _ h1 h2, fracOf_singleton, charDigit_digitCh h2]
      omega
    · rw [if_neg h10]
      by_cases hf10 : f < 10
      · rw [if_pos hf10]
        have h1 : 0 < f := by omega
        have hdata : (("0" : String) ++ natStr f).data = '0' :: (natStr f).data := by
          rw [String.data_append]
          rfl
        rw [hdata, natStr_single f h1 hf10, fracOf_pair, charDigit_digitCh hf10]
        have hz : charDigit '0' = 0 := rfl
        rw [hz]
        omega
      · rw [if_neg hf10]
        rw [natStr_two f (by omega) h, fracOf_pair,
          charDigit_digitCh (show f / 10 < 10 by omega),
          charDigit_digitCh (show f % 10 < 10 by omega)]
        omega

theorem fracStr_chars {f : ℕ} {c : Char} (hc : c ∈ (fracStr f).data) :
    48 ≤ c.toNat ∧ c.toNat ≤ 57 := by
  unfold fracStr at hc
  split at hc
  · have hc0 : c = '0' := by simpa using hc
    subst hc0
    decide
  · split at hc
    · exact natStr_chars hc
    · split at hc
      · have hdata : (("0" : String) ++ natStr f).data = '0' :: (natStr f).data := by
          rw [String.data_append]
          rfl
        rw [hdata] at hc
        rcases List.mem_cons.mp hc with hc0 | hc1
        · subst hc0; decide
        · exact natStr_chars hc1
      · exact natStr_chars hc

theorem takeWhile_append_stop {p : Char → Bool} {l r : List Char}
    (hl : ∀ c ∈ l, p c = true) (hr : ∀ c, r.head? = some c → p c = false) :
    (l ++ r).takeWhile p = l ∧ (l ++ r).dropWhile p = r := by
  induction l with
  | nil =>
      simp only [List.nil_append]
      cases r with
      | nil => simp
      | cons x xs =>
          have hx := hr x rfl
          simp [List.takeWhile_cons, List.dropWhile_cons, hx]
  | cons c cs ih =>
      have hc := hl c (by simp)
      have ih2 := ih (fun d hd => hl d (by simp [hd]))
      simp [List.takeWhile_cons, List.dropWhile_cons, hc, ih2.1, ih2.2]

theorem floatParse_eq (c : ℤ) :
    floatParse ((if c < 0 then ['-'] else []) ++ (natStr (c.natAbs / 100)).data)
      ((fracStr (c.natAbs % 100)).data) = .float c := by
  have hfrac : fracOf (fracStr (c.natAbs % 100)).data = c.natAbs % 100 :=
    frac_parse _ (by omega)
  by_cases hneg : c < 0
  · rw [if_pos hneg]
    unfold floatParse
    rw [if_pos (by simp)]
    simp only [List.singleton_append, List.drop_succ_cons, List.drop_zero]
    rw [natParse_natStr, hfrac]
    congr 1
    omega
  · rw [if_neg hneg]
    unfold floatParse
    rw [if_neg (by simpa using natStr_head_ne_minus (c.natAbs / 100))]
    simp only [List.nil_append]
    rw [natParse_natStr, hfrac]
    congr 1
    omega

theorem parseScoreVal_pyFloatStr (c : ℤ) : parseScoreVal (pyFloatStr c).data = .float c := by
  have hdata : (pyFloatStr c).data =
      ((if c < 0 then ['-'] else []) ++ (natStr (c.natAbs / 100)).data) ++
        '.' :: (fracStr (c.natAbs % 100)).data := by
    unfold pyFloatStr
    by_cases hneg : c < 0
    · rw [if_pos hneg, if_pos hneg]
      simp [String.data_append, List.append_assoc]
    · rw [if_neg hneg, if_neg hneg]
      simp [String.data_append, List.append_assoc]
  have hipchars : ∀ ch ∈ (if c < 0 then ['-'] else []) ++ (natStr (c.natAbs / 100)).data,
      (fun x => decide (x ≠ '.')) ch = true := by
    intro ch hch
    simp only [decide_eq_true_eq]
    intro hcontra
    subst hcontra
    rcases List.mem_append.mp hch with h1 | h2
    · by_cases hneg : c < 0
      · rw [if_pos hneg] at h1
        simp at h1
      · rw [if_neg hneg] at h1
        cases h1
    · have hb := natStr_chars h2
      have h46 : ('.').toNat = 46 := rfl
      omega
  have hstop : ∀ ch : Char, ('.' :: (fracStr (c.natAbs % 100)).data).head? = some ch →
      (fun x => decide (x ≠ '.')) ch = false := by
    intro ch hch
    simp only [List.head?_cons, Option.some_inj] at hch
    subst hch
    decide
  have hsplit := takeWhile_append_stop hipchars hstop
  rw [hdata]
  unfold parseScoreVal
  rw [if_pos (by simp)]
  rw [hsplit.1, hsplit.2]
  simp only [List.drop_succ_cons, List.drop_zero]
  exact floatParse_eq c

theorem intStr_chars {z : ℤ} {c : Char} (hc : c ∈ (intStr z).data) :
    (48 ≤ c.toNat ∧ c.toNat ≤ 57) ∨ c = '-' := by
  unfold intStr at hc
  split at hc
  · have hdata : (("-" : String) ++ natStr z.natAbs).data = '-' :: (natStr z.natAbs).data := by
      rw [String.data_append]
      rfl
    rw [hdata] at hc
    rcases List.mem_cons.mp hc with hc0 | hc1
    · exact Or.inr hc0
    · exact Or.inl (natStr_chars hc1)
  · exact Or.inl (natStr_chars hc)

theorem parseScoreVal_intStr (z : ℤ) : parseScoreVal (intStr z).data = .int z := by
  unfold parseScoreVal
  rw [if_neg ?hdot]
  · rw [intParse_intStr]
  case hdot =>
    intro hmem
    rcases intStr_chars hmem with ⟨h1, h2⟩ | h
    · have h46 : ('.').toNat = 46 := rfl
      omega
    · cases h

theorem parseScoreVal_scoreValStr (v : ScoreVal) :
    parseScoreVal (scoreValStr v).data = v := by
  cases v with
  | int z => exact parseScoreVal_intStr z
  | float c => exact parseScoreVal_pyFloatStr c

theorem scoreValStr_chars {v : ScoreVal} {c : Char} (hc : c ∈ (scoreValStr v).data) :
    (48 ≤ c.toNat ∧ c.toNat ≤ 57) ∨ c = '-' ∨ c = '.' := by
  cases v with
  | int z =>
      rcases intStr_chars hc with h | h
      · exact Or.inl h
      · exact Or.inr (Or.inl h)
  | float cf =>
      have hdata : (pyFloatStr cf).data =
          ((if cf < 0 then ['-'] else []) ++ (natStr (cf.natAbs / 100)).data) ++
            '.' :: (fracStr (cf.natAbs % 100)).data := by
        unfold pyFloatStr
        split <;> simp [String.data_append, List.append_assoc]
      rw [show scoreValStr (.float cf) = pyFloatStr cf from rfl, hdata] at hc
      rcases List.mem_append.mp hc with h1 | h2
      · rcases List.mem_append.mp h1 with h3 | h4
        · split at h3
          · have : c = '-' := by simpa using h3
            exact Or.inr (Or.inl this)
          · cases h3
        · exact Or.inl (natStr_chars h4)
      · rcases List.mem_cons.mp h2 with h3 | h4
        · exact Or.inr (Or.inr h3)
        · exact Or.inl (fracStr_chars h4)

theorem scoreValStr_no_newline {v : ScoreVal} {c : Char}
    (hc : c ∈ (scoreValStr v).data) : ¬ c = '\n' := by
  intro h
  subst h
  rcases scoreValStr_chars hc with ⟨h1, h2⟩ | h | h
  · have h10 : ('\n').toNat = 10 := rfl
    omega
  · cases h
  · cases h

theorem scoreValStr_ne_NA (v : ScoreVal) :
    (scoreValStr v).data ≠ (("N/A" : String)).data := by
  intro h
  have hN : 'N' ∈ (scoreValStr v).data := by
    rw [h]
    decide
  rcases scoreValStr_chars hN with ⟨h1, h2⟩ | h | h
  · have h78 : ('N').toNat = 78 := rfl
    omega
  · cases h
  · cases h

/-- One analyzed-project dictionary as the report stage reads it (nodes.py
lines 524-541): free-form strings plus the generic `metadata` and `scores`
mappings it iterates.  Metadata values are modelled by their rendered
strings; score values by `ScoreVal`. -/
structure RProject where
  repo_name : String
  url : String
  status : String
  error : Option String := none
  metadata : List (String × String) := []
  summary : Option String := none
  scores : List (String × ScoreVal) := []
deriving DecidableEq, Repr

/-- The PreparedInput of `ReportGenerationNode` (nodes.py lines 485-492).
The three metric fields model the `.get(key, 'N/A')` reads of the
`overall_candidate_metrics` dictionary (`none` = key absent). -/
structure ReportData where
  resume_text : String := "N/A"
  github_project_urls : List String := []
  other_urls : List String := []
  analyzed_github_projects : List RProject := []
  overall_candidate_score : Option ScoreVal := none
  elo_score : Option ScoreVal := none
  num_successful_projects : Option ScoreVal := none
deriving DecidableEq, Repr

/-- `metrics.get(key, 'N/A')` rendered into the overview lines. -/
def valueOrNA : Option ScoreVal → String
  | some v => scoreValStr v
  | none => "N/A"

/-- The `- {url}` lines of a URL section (nodes.py lines 510-511, 517-518). -/
def renderUrlLines : List String → String
  | [] => ""
  | u :: us => "- " ++ u ++ "\n" ++ renderUrlLines us

/-- The `  - {key}: {value}` metadata lines (nodes.py lines 530-531). -/
def renderMetaLines : List (String × String) → String
  | [] => ""
  | kv :: kvs => "  - " ++ kv.1 ++ ": " ++ kv.2 ++ "\n" ++ renderMetaLines kvs

/-- The `  - {score_name}: {score_value}` lines (nodes.py lines 538-539). -/
def renderScoreLines : List (String × ScoreVal) → String
  | [] => ""
  | sv :: svs => "  - " ++ sv.1 ++ ": " ++ scoreValStr sv.2 ++ "\n" ++ renderScoreLines svs

/-- One project section of the report (nodes.py lines 524-542). -/
def renderProject (p : RProject) : String :=
  "### [" ++ p.repo_name ++ "](" ++ p.url ++ ")\n" ++
  ("- **Status:** " ++ p.status ++ "\n") ++
  (if pyTruthy p.error then "- **Error:** " ++ p.error.getD "" ++ "\n" else "") ++
  "- **Metadata:**\n" ++ renderMetaLines p.metadata ++
  (if pyTruthy p.summary then "- **LLM Summary:** " ++ p.summary.getD "" ++ "\n"
   else "- **LLM Summary:** Not available.\n") ++
  (if p.scores ≠ [] then "- **Scores:**\n" ++ renderScoreLines p.scores
   else "- **Scores:** Not assigned.\n") ++
  "\n"

/-- All project sections in order. -/
def renderProjects : List RProject → String
  | [] => ""
  | p :: ps => renderProject p ++ renderProjects ps

/-- `ReportGenerationNode.exec` (nodes.py lines 494-548): concatenation of
the `report_content` pieces, each rendered exactly as the source appends
it. -/
def reportGenerationExec (d : ReportData) : String :=
  "# CodeCredX Candidate Report\n" ++ "---\n" ++
  "## Candidate Overview\n" ++
  ("**Overall Score:** " ++ valueOrNA d.overall_candidate_score ++ "\n") ++
  ("**Simulated Elo Rating:** " ++ valueOrNA d.elo_score ++ "\n") ++
  ("**Number of Successful Projects Analyzed:** " ++
    valueOrNA d.num_successful_projects ++ "\n") ++
  ("**Resume Snippet:**\n```\n" ++ String.mk (d.resume_text.data.take 200) ++ "...\n```\n") ++
  "\n## Extracted URLs\n" ++ "### GitHub Project URLs:\n" ++
  (if d.github_project_urls ≠ [] then renderUrlLines d.github_project_urls
   else "No GitHub project URLs found in resume.\n") ++
  "\n### Other URLs:\n" ++
  (if d.other_urls ≠ [] then renderUrlLines d.other_urls
   else "No other URLs found in resume.\n") ++
  "\n## Analyzed Projects\n" ++
  (if d.analyzed_github_projects ≠ [] then renderProjects d.analyzed_github_projects
   else "No GitHub projects were successfully analyzed.\n")

/-! #### The extraction parser -/

/-- Split one line off: the characters before the first newline and the rest
after it; fails when no newline remains. -/
def pLine (cs : List Char) : Option (List Char × List Char) :=
  match cs.dropWhile (fun c => c ≠ '\n') with
  | [] => none
  | _ :: r => some (cs.takeWhile (fun c => c ≠ '\n'), r)

theorem pLine_length {cs pre r : List Char} (h : pLine cs = some (pre, r)) :
    r.length < cs.length := by
  unfold pLine at h
  cases hd : cs.dropWhile (fun c => c ≠ '\n') with
  | nil => rw [hd] at h; cases h
  | cons x xs =>
      rw [hd] at h
      have hxs : xs = r := congrArg Prod.snd (Option.some_inj.mp h)
      subst hxs
      have hsub : (cs.dropWhile (fun c => c ≠ '\n')).length ≤ cs.length :=
        (List.dropWhile_sublist _).length_le
      rw [hd] at hsub
      simp only [List.length_cons] at hsub
      omega

theorem dropLit_length {p cs r : List Char} (h : dropLit p cs = some r) :
    r.length + p.length = cs.length := by
  induction p generalizing cs with
  | nil =>
      cases h
      simp
  | cons a ps ih =>
      cases cs with
      | nil => cases h
      | cons c cs2 =>
          unfold dropLit at h
          by_cases hac : c = a
          · rw [if_pos hac] at h
            have := ih h
            simp only [List.length_cons]
            omega
          · rw [if_neg hac] at h
            cases h

/-- Fuel-bounded loop skipping a maximal run of nonempty lines (stop at an
empty line); the fuel only needs to exceed the number of lines skipped, and
the wrapper below passes the input length. -/
def skipItemLinesF : ℕ → List Char → Option (List Char)
  | 0, _ => none
  | _ + 1, [] => none
  | fuel + 1, c :: cs2 =>
    if c = '\n' then some (c :: cs2)
    else
      match pLine (c :: cs2) with
      | some pr => skipItemLinesF fuel pr.2
      | none => none

/-- Skip a maximal run of nonempty lines; stop at an empty line. -/
def skipItemLines (cs : List Char) : Option (List Char) :=
  skipItemLinesF cs.length cs

/-- Fuel-bounded loop of `skipMetaLines`. -/
def skipMetaLinesF : ℕ → List Char → Option (List Char)
  | 0, _ => none
  | fuel + 1, cs =>
    if (dropLit ("  - ".data) cs).isSome then
      match pLine cs with
      | some pr => skipMetaLinesF fuel pr.2
      | none => none
    else some cs

/-- Skip the `  - ...` metadata lines. -/
def skipMetaLines (cs : List Char) : Option (List Char) :=
  skipMetaLinesF cs.length cs

/-- Fuel-bounded loop of `parseScoreLines`. -/
def parseScoreLinesF : ℕ → List Char → Option (List (String × ScoreVal) × List Char)
  | 0, _ => none
  | fuel + 1, cs =>
    match dropLit ("  - ".data) cs with
    | none => some ([], cs)
    | some rest =>
      match dropLit (": ".data) (rest.dropWhile (fun c => c ≠ ':')) with
      | none => none
      | some r2 =>
        match pLine r2 with
        | none => none
        | some pr =>
          match parseScoreLinesF fuel pr.2 with
          | none => none
          | some itemsRest =>
            some ((String.mk (rest.takeWhile (fun c => c ≠ ':')), parseScoreVal pr.1)
              :: itemsRest.1, itemsRest.2)

/-- Parse the `  - {name}: {value}` score lines. -/
def parseScoreLines (cs : List Char) : Option (List (String × ScoreVal) × List Char) :=
  parseScoreLinesF cs.length cs

/-- Skip the optional `- **Error:** ...` line. -/
def skipErrorLine (cs : List Char) : Option (List Char) :=
  match dropLit ("- **Error:** ".data) cs with
  | some r => (pLine r).map Prod.snd
  | none => some cs

/-- Parse the scores section of one project: either the `- **Scores:**`
header followed by score lines, or the `Not assigned.` line. -/
def parseScoresSection (cs : List Char) : Option (List (String × ScoreVal) × List Char) :=
  match dropLit ("- **Scores:**\n".data) cs with
  | some r => parseScoreLines r
  | none =>
    match dropLit ("- **Scores:** Not assigned.\n".data) cs with
    | some r => some ([], r)
    | none => none

/-- Parse one rendered project section, returning its score mapping. -/
def parseProjectBlock (cs : List Char) : Option (List (String × ScoreVal) × List Char) :=
  (dropLit ("### [".data) cs).bind fun r1 =>
  (pLine r1).bind fun t1 =>
  (dropLit ("- **Status:** ".data) t1.2).bind fun r2 =>
  (pLine r2).bind fun t2 =>
  (skipErrorLine t2.2).bind fun r3 =>
  (dropLit ("- **Metadata:**\n".data) r3).bind fun r4 =>
  (skipMetaLines r4).bind fun r5 =>
  (dropLit ("- **LLM Summary:** ".data) r5).bind fun r6 =>
  (pLine r6).bind fun t6 =>
  (parseScoresSection t6.2).bind fun sc =>
  (dropLit (("\n" : String).data) sc.2).map fun r8 => (sc.1, r8)

/-- Fuel-bounded loop of `parseProjects`. -/
def parseProjectsF : ℕ → List Char → Option (List (List (String × ScoreVal)) × List Char)
  | 0, _ => none
  | fuel + 1, cs =>
    match parseProjectBlock cs with
    | none => some ([], cs)
    | some scRest =>
      match parseProjectsF fuel scRest.2 with
      | none => none
      | some out => some (scRest.1 :: out.1, out.2)

/-- Parse the rendered project sections in sequence. -/
def parseProjects (cs : List Char) : Option (List (List (String × ScoreVal)) × List Char) :=
  parseProjectsF (cs.length + 1) cs

/-- The extracted score data of a rendered report. -/
structure ExtractedScores where
  overall : Option ScoreVal
  elo : Option ScoreVal
  num : Option ScoreVal
  projectScores : List (List (String × ScoreVal))
deriving DecidableEq, Repr

/-- Read an overview value, mapping `N/A` back to an absent key. -/
def parseValueLine (cs : List Char) : Option ScoreVal :=
  if cs = (("N/A" : String)).data then none else some (parseScoreVal cs)

/-- Extraction, phase 1: the overview header — returns the three rendered
value strings and the remainder after the resume-snippet fence. -/
def extractHeader (cs : List Char) : Option ((List Char × List Char × List Char) × List Char) := do
  let r1 ← dropLit ("# CodeCredX Candidate Report\n".data) cs
  let r2 ← dropLit ("---\n".data) r1
  let r3 ← dropLit ("## Candidate Overview\n".data) r2
  let r4 ← dropLit ("**Overall Score:** ".data) r3
  let ov ← pLine r4
  let r5 ← dropLit ("**Simulated Elo Rating:** ".data) ov.2
  let el ← pLine r5
  let r6 ← dropLit ("**Number of Successful Projects Analyzed:** ".data) el.2
  let nm ← pLine r6
  let r7 ← dropLit ("**Resume Snippet:**\n```\n".data) nm.2
  let sn ← pLine r7
  let r8 ← dropLit ("```\n".data) sn.2
  pure ((ov.1, el.1, nm.1), r8)

/-- Extraction, phase 2: the two URL sections. -/
def extractUrlSections (cs : List Char) : Option (List Char) := do
  let r9 ← dropLit ("\n## Extracted URLs\n".data) cs
  let r10 ← dropLit ("### GitHub Project URLs:\n".data) r9
  let r11 ← skipItemLines r10
  let r12 ← dropLit ("\n### Other URLs:\n".data) r11
  skipItemLines r12

/-- Extraction, phase 3: the analyzed-projects section. -/
def extractProjectsSection (cs : List Char) : Option (List (List (String × ScoreVal))) := do
  let r14 ← dropLit ("\n## Analyzed Projects\n".data) cs
  let ps ← parseProjects r14
  if ps.2 = [] then pure ps.1
  else do
    let rest ← dropLit ("No GitHub projects were successfully analyzed.\n".data) ps.2
    if rest = [] then pure ps.1 else none

/-- Extract the embedded score fields back out of a rendered report: the
overall score, the Elo rating, the number of successful projects, and each
project's score mapping. -/
def extractReportScores (s : String) : Option ExtractedScores := do
  let hd ← extractHeader s.data
  let r13 ← extractUrlSections hd.2
  let ps ← extractProjectsSection r13
  pure ⟨parseValueLine hd.1.1, parseValueLine hd.1.2.1, parseValueLine hd.1.2.2, ps⟩

/-! #### Inverse lemmas: parsing a rendered report -/

theorem dropLit_append (p r : List Char) : dropLit p (p ++ r) = some r := by
  induction p with
  | nil => rfl
  | cons a ps ih => simp [dropLit, ih]

theorem dropLit_cons_ne {a b : Char} (ps r : List Char) (h : b ≠ a) :
    dropLit (a :: ps) (b :: r) = none := by
  simp [dropLit, h]

theorem dropLit_none_of_ne (pre : List Char) {a b : Char} (ps r : List Char) (h : b ≠ a) :
    dropLit (pre ++ a :: ps) (pre ++ b :: r) = none := by
  induction pre with
  | nil => exact dropLit_cons_ne ps r h
  | cons c cs ih => simp [dropLit, ih]

theorem pLine_append (l r : List Char) (hl : '\n' ∉ l) :
    pLine (l ++ '\n' :: r) = some (l, r) := by
  have hsplit := takeWhile_append_stop (p := fun c => decide (c ≠ '\n'))
    (l := l) (r := '\n' :: r)
    (fun c hc => by
      simp only [decide_eq_true_eq]
      intro hcontra
      subst hcontra
      exact hl hc)
    (fun c hc => by
      simp only [List.head?_cons, Option.some_inj] at hc
      subst hc
      decide)
  unfold pLine
  rw [hsplit.2, hsplit.1]

/-- The rendered lines of a skipped block: each line's body followed by its
newline. -/
def joinLines : List (List Char) → List Char
  | [] => []
  | l :: ls => l ++ '\n' :: joinLines ls

theorem joinLines_length (lines : List (List Char)) :
    lines.length ≤ (joinLines lines).length := by
  induction lines with
  | nil => simp [joinLines]
  | cons l ls ih =>
      simp only [joinLines, List.length_cons, List.length_append]
      omega

theorem skipItemLinesF_stop (f : ℕ) (r : List Char) (hr : r.head? = some '\n') :
    skipItemLinesF (f + 1) r = some r := by
  cases r with
  | nil => cases hr
  | cons c cs =>
      simp only [List.head?_cons, Option.some_inj] at hr
      subst hr
      simp [skipItemLinesF]

theorem skipItemLinesF_step (f : ℕ) (l r : List Char) (hl : l ≠ []) (hn : '\n' ∉ l) :
    skipItemLinesF (f + 1) (l ++ '\n' :: r) = skipItemLinesF f r := by
  cases l with
  | nil => exact absurd rfl hl
  | cons c cs =>
      have hc : ¬ c = '\n' := fun h => hn (h ▸ List.mem_cons_self c cs)
      have hp : pLine ((c :: cs) ++ '\n' :: r) = some (c :: cs, r) :=
        pLine_append (c :: cs) r hn
      simp only [List.cons_append] at hp ⊢
      simp [skipItemLinesF, hc, hp]

theorem skipItemLinesF_lines (lines : List (List Char)) (f : ℕ) (r : List Char)
    (h : ∀ l ∈ lines, l ≠ [] ∧ '\n' ∉ l) (hr : r.head? = some '\n')
    (hf : lines.length < f) :
    skipItemLinesF f (joinLines lines ++ r) = some r := by
  induction lines generalizing f with
  | nil =>
      cases f with
      | zero => omega
      | succ f2 =>
          simp only [joinLines, List.nil_append]
          exact skipItemLinesF_stop f2 r hr
  | cons l ls ih =>
      cases f with
      | zero => omega
      | succ f2 =>
          obtain ⟨hl1, hl2⟩ := h l (by simp)
          simp only [joinLines, List.append_assoc, List.cons_append]
          rw [skipItemLinesF_step f2 l (joinLines ls ++ r) hl1 hl2]
          exact ih f2 (fun x hx => h x (by simp [hx]))
            (by simp only [List.length_cons] at hf; omega)

theorem skipItemLines_lines (lines : List (List Char)) (r : List Char)
    (h : ∀ l ∈ lines, l ≠ [] ∧ '\n' ∉ l) (hr : r.head? = some '\n') :
    skipItemLines (joinLines lines ++ r) = some r := by
  unfold skipItemLines
  apply skipItemLinesF_lines lines _ r h hr
  have h1 := joinLines_length lines
  have h2 : 1 ≤ r.length := by
    cases r with
    | nil => cases hr
    | cons c cs => simp
  simp only [List.length_append]
  omega

theorem renderUrlLines_data (urls : List String) :
    (renderUrlLines urls).data = joinLines (urls.map (fun u => '-' :: ' ' :: u.data)) := by
  induction urls with
  | nil => rfl
  | cons u us ih =>
      simp only [renderUrlLines, joinLines, List.map_cons, String.data_append, ih]
      simp

/-- Skipping a rendered URL section (either its `- url` lines or its
no-URLs message) consumes exactly the section. -/
theorem skipItemLines_urlBlock (urls : List String) (msg : String) (r : List Char)
    (hwf : ∀ u ∈ urls, '\n' ∉ u.data)
    (hmsg : ∃ body, msg.data = joinLines [body] ∧ body ≠ [] ∧ '\n' ∉ body)
    (hr : r.head? = some '\n') :
    skipItemLines ((if urls ≠ [] then renderUrlLines urls else msg).data ++ r) = some r := by
  by_cases hu : urls = []
  · rw [if_neg (by simp [hu])]
    obtain ⟨body, hbody, hne, hnl⟩ := hmsg
    rw [hbody]
    exact skipItemLines_lines [body] r (by simpa using ⟨hne, hnl⟩) hr
  · rw [if_pos hu, renderUrlLines_data]
    apply skipItemLines_lines _ _ _ hr
    intro l hl
    obtain ⟨u, hu2, rfl⟩ := List.mem_map.mp hl
    refine ⟨by simp, ?_⟩
    intro hmem
    rcases List.mem_cons.mp hmem with h1 | h2
    · cases h1
    · rcases List.mem_cons.mp h2 with h3 | h4
      · cases h3
      · exact hwf u hu2 h4

theorem skipMetaLinesF_stop (f : ℕ) (r : List Char)
    (hr : dropLit ("  - ".data) r = none) : skipMetaLinesF (f + 1) r = some r := by
  simp [skipMetaLinesF, hr]

theorem skipMetaLinesF_step (f : ℕ) (body r : List Char) (hn : '\n' ∉ body) :
    skipMetaLinesF (f + 1) (("  - ".data ++ body) ++ '\n' :: r) = skipMetaLinesF f r := by
  have hsome : (dropLit ("  - ".data) ((("  - ".data ++ body) ++ '\n' :: r))).isSome := by
    rw [List.append_assoc, dropLit_append]
    rfl
  have hline : pLine (("  - ".data ++ body) ++ '\n' :: r) =
      some ("  - ".data ++ body, r) :=
    pLine_append _ _ (by
      intro hmem
      rcases List.mem_append.mp hmem with h1 | h2
      · revert h1
        decide
      · exact hn h2)
  rw [skipMetaLinesF, if_pos hsome, hline]

theorem renderMetaLines_length (kvs : List (String × String)) :
    kvs.length ≤ (renderMetaLines kvs).data.length := by
  induction kvs with
  | nil => simp [renderMetaLines]
  | cons kv kvs ih =>
      simp only [renderMetaLines, String.data_append, List.length_cons, List.length_append]
      have h1 : (("\n" : String)).data.length = 1 := rfl
      omega

theorem skipMetaLinesF_render (kvs : List (String × String)) (f : ℕ) (r : List Char)
    (hwf : ∀ kv ∈ kvs, '\n' ∉ (kv.1 : String).data ∧ '\n' ∉ (kv.2 : String).data)
    (hr : dropLit ("  - ".data) r = none) (hf : kvs.length < f) :
    skipMetaLinesF f ((renderMetaLines kvs).data ++ r) = some r := by
  induction kvs generalizing f with
  | nil =>
      cases f with
      | zero => omega
      | succ f2 =>
          have h0 : (renderMetaLines []).data = [] := rfl
          rw [h0, List.nil_append]
          exact skipMetaLinesF_stop f2 r hr
  | cons kv kvs ih =>
      cases f with
      | zero => omega
      | succ f2 =>
          obtain ⟨hk, hv⟩ := hwf kv (by simp)
          have hdec : (renderMetaLines (kv :: kvs)).data ++ r =
              ("  - ".data ++ (kv.1.data ++ (": ".data ++ kv.2.data))) ++
                '\n' :: ((renderMetaLines kvs).data ++ r) := by
            simp [renderMetaLines, String.data_append, List.append_assoc]
          rw [hdec, skipMetaLinesF_step f2 _ _ (by
            intro hmem
            rcases List.mem_append.mp hmem with h1 | h2
            · exact hk h1
            · rcases List.mem_append.mp h2 with h3 | h4
              · revert h3
                decide
              · exact hv h4)]
          exact ih f2 (fun x hx => hwf x (by simp [hx]))
            (by simp only [List.length_cons] at hf; omega)

theorem skipMetaLines_render (kvs : List (String × String)) (r : List Char)
    (hwf : ∀ kv ∈ kvs, '\n' ∉ (kv.1 : String).data ∧ '\n' ∉ (kv.2 : String).data)
    (hr : dropLit ("  - ".data) r = none) (hrne : r ≠ []) :
    skipMetaLines ((renderMetaLines kvs).data ++ r) = some r := by
  unfold skipMetaLines
  apply skipMetaLinesF_render kvs _ r hwf hr
  have h1 := renderMetaLines_length kvs
  have h2 : 1 ≤ r.length := by
    cases r with
    | nil => exact absurd rfl hrne
    | cons c cs => simp
  simp only [List.length_append]
  omega

theorem renderScoreLines_length (svs : List (String × ScoreVal)) :
    svs.length ≤ (renderScoreLines svs).data.length := by
  induction svs with
  | nil => simp [renderScoreLines]
  | cons sv svs ih =>
      simp only [renderScoreLines, String.data_append, List.length_cons, List.length_append]
      have h1 : (("\n" : String)).data.length = 1 := rfl
      omega

theorem parseScoreLinesF_render (svs : List (String × ScoreVal)) (f : ℕ) (r : List Char)
    (hwf : ∀ sv ∈ svs, '\n' ∉ (sv.1 : String).data ∧ ':' ∉ (sv.1 : String).data)
    (hr : dropLit ("  - ".data) r = none) (hf : svs.length < f) :
    parseScoreLinesF f ((renderScoreLines svs).data ++ r) = some (svs, r) := by
  induction svs generalizing f with
  | nil =>
      cases f with
      | zero => omega
      | succ f2 =>
          have h0 : (renderScoreLines []).data = [] := rfl
          rw [h0, List.nil_append]
          simp [parseScoreLinesF, hr]
  | cons sv svs ih =>
      cases f with
      | zero => omega
      | succ f2 =>
          obtain ⟨hn1, hc1⟩ := hwf sv (by simp)
          have hvnl : '\n' ∉ (scoreValStr sv.2).data := fun hmem =>
            scoreValStr_no_newline hmem rfl
          have hdec : (renderScoreLines (sv :: svs)).data ++ r =
              "  - ".data ++ (sv.1.data ++ (':' :: ' ' ::
                ((scoreValStr sv.2).data ++ '\n' :: ((renderScoreLines svs).data ++ r)))) := by
            simp [renderScoreLines, String.data_append, List.append_assoc]
          have hsplit := takeWhile_append_stop (p := fun c => decide (c ≠ ':'))
            (l := sv.1.data)
            (r := ':' :: ' ' :: ((scoreValStr sv.2).data ++ '\n' ::
              ((renderScoreLines svs).data ++ r)))
            (fun c hc => by
              simp only [decide_eq_true_eq]
              intro hcontra
              subst hcontra
              exact hc1 hc)
            (fun c hc => by
              simp only [List.head?_cons, Option.some_inj] at hc
              subst hc
              decide)
          have h4 : dropLit ((": " : String).data)
              (':' :: ' ' :: ((scoreValStr sv.2).data ++ '\n' ::
                ((renderScoreLines svs).data ++ r))) =
              some ((scoreValStr sv.2).data ++ '\n' :: ((renderScoreLines svs).data ++ r)) :=
            dropLit_append (": ".data) _
          have h5 : pLine ((scoreValStr sv.2).data ++ '\n' ::
              ((renderScoreLines svs).data ++ r)) =
              some ((scoreValStr sv.2).data, (renderScoreLines svs).data ++ r) :=
            pLine_append _ _ hvnl
          have h6 := ih f2 (fun x hx => hwf x (by simp [hx]))
            (by simp only [List.length_cons] at hf; omega)
          rw [hdec]
          simp only [parseScoreLinesF, dropLit_append, hsplit.1, hsplit.2, h4, h5, h6]
          simp [parseScoreVal_scoreValStr]

theorem parseScoreLines_render (svs : List (String × ScoreVal)) (r : List Char)
    (hwf : ∀ sv ∈ svs, '\n' ∉ (sv.1 : String).data ∧ ':' ∉ (sv.1 : String).data)
    (hr : dropLit ("  - ".data) r = none) (hrne : r ≠ []) :
    parseScoreLines ((renderScoreLines svs).data ++ r) = some (svs, r) := by
  unfold parseScoreLines
  apply parseScoreLinesF_render svs _ r hwf hr
  have h1 := renderScoreLines_length svs
  have h2 : 1 ≤ r.length := by
    cases r with
    | nil => exact absurd rfl hrne
    | cons c cs => simp
  simp only [List.length_append]
  omega

theorem dropLit_none_helper (pre : List Char) {a b : Char} (ps ms X : List Char)
    (hne : b ≠ a) : dropLit (pre ++ a :: ps) ((pre ++ b :: ms) ++ X) = none := by
  have h1 : (pre ++ b :: ms) ++ X = pre ++ b :: (ms ++ X) := by simp
  rw [h1]
  exact dropLit_none_of_ne pre ps _ hne

theorem skipErrorLine_present (e : String) (r : List Char) (hn : '\n' ∉ e.data) :
    skipErrorLine (("- **Error:** ".data) ++ (e.data ++ '\n' :: r)) = some r := by
  have h1 : pLine (e.data ++ '\n' :: r) = some (e.data, r) := pLine_append _ _ hn
  unfold skipErrorLine
  rw [dropLit_append]
  show (pLine (e.data ++ '\n' :: r)).map Prod.snd = some r
  rw [h1]
  rfl

theorem skipErrorLine_absent (r : List Char)
    (h : dropLit ("- **Error:** ".data) r = none) : skipErrorLine r = some r := by
  simp [skipErrorLine, h]

/-- Consuming the optional error line of a rendered project section. -/
theorem skipErrorLine_render (e : Option String) (X : List Char)
    (hn : '\n' ∉ (e.getD "").data)
    (hX : dropLit ("- **Error:** ".data) X = none) :
    skipErrorLine (((if pyTruthy e then "- **Error:** " ++ e.getD "" ++ "\n"
      else ("" : String))).data ++ X) = some X := by
  by_cases ht : pyTruthy e = true
  · rw [if_pos ht]
    have hdec : (("- **Error:** " ++ e.getD "" ++ "\n" : String)).data ++ X =
        ("- **Error:** ".data) ++ ((e.getD "").data ++ '\n' :: X) := by
      simp [String.data_append, List.append_assoc]
    rw [hdec]
    exact skipErrorLine_present _ _ hn
  · rw [if_neg ht]
    have h0 : (("" : String)).data = [] := rfl
    rw [h0, List.nil_append]
    exact skipErrorLine_absent X hX

/-- The summary line of a rendered project section always has the
`- **LLM Summary:** ` prefix and a newline-free body. -/
theorem summaryLine_render (s : Option String) (X : List Char)
    (hn : '\n' ∉ (s.getD "").data) :
    ∃ body, (((if pyTruthy s then "- **LLM Summary:** " ++ s.getD "" ++ "\n"
      else ("- **LLM Summary:** Not available.\n" : String))).data ++ X) =
      ("- **LLM Summary:** ".data) ++ (body ++ '\n' :: X) ∧ '\n' ∉ body := by
  by_cases ht : pyTruthy s = true
  · refine ⟨(s.getD "").data, ?_, hn⟩
    rw [if_pos ht]
    simp [String.data_append, List.append_assoc]
  · refine ⟨("Not available." : String).data, ?_, by decide⟩
    rw [if_neg ht]
    have hdec : ("- **LLM Summary:** Not available.\n" : String).data =
        ("- **LLM Summary:** ".data) ++ (("Not available." : String).data ++ ['\n']) := rfl
    rw [hdec]
    simp [List.append_assoc]

/-- Parsing the scores section of a rendered project. -/
theorem parseScoresSection_render (svs : List (String × ScoreVal)) (r : List Char)
    (hwf : ∀ sv ∈ svs, '\n' ∉ (sv.1 : String).data ∧ ':' ∉ (sv.1 : String).data)
    (hr : dropLit ("  - ".data) r = none) (hrne : r ≠ []) :
    parseScoresSection (((if svs ≠ [] then "- **Scores:**\n" ++ renderScoreLines svs
      else ("- **Scores:** Not assigned.\n" : String))).data ++ r) = some (svs, r) := by
  by_cases hs : svs = []
  · rw [if_neg (by simp [hs])]
    have hfail : dropLit (("- **Scores:**\n" : String).data)
        ((("- **Scores:** Not assigned.\n" : String).data) ++ r) = none := by
      have hd1 : ("- **Scores:**\n" : String).data =
          (("- **Scores:**" : String).data) ++ '\n' :: [] := rfl
      have hd2 : ("- **Scores:** Not assigned.\n" : String).data =
          (("- **Scores:**" : String).data) ++ ' ' :: (("Not assigned.\n" : String).data) := rfl
      rw [hd1, hd2]
      exact dropLit_none_helper _ _ _ _ (by decide)
    rw [hs]
    unfold parseScoresSection
    rw [hfail, dropLit_append]
  · rw [if_pos hs]
    have hdec : (("- **Scores:**\n" ++ renderScoreLines svs : String)).data ++ r =
        (("- **Scores:**\n" : String).data) ++ ((renderScoreLines svs).data ++ r) := by
      simp [String.data_append, List.append_assoc]
    rw [hdec]
    have hp := parseScoreLines_render svs r hwf hr hrne
    unfold parseScoresSection
    rw [dropLit_append]
    show parseScoreLines ((renderScoreLines svs).data ++ r) = some (svs, r)
    exact hp

/-- The well-formedness conditions under which a rendered project section is
unambiguous: the free-text fields carry no newline and the score names carry
no colon. -/
def wfRProject (p : RProject) : Prop :=
  '\n' ∉ p.repo_name.data ∧ '\n' ∉ p.url.data ∧ '\n' ∉ p.status.data ∧
  '\n' ∉ (p.error.getD "").data ∧
  (∀ kv ∈ p.metadata, '\n' ∉ (kv.1 : String).data ∧ '\n' ∉ (kv.2 : String).data) ∧
  '\n' ∉ (p.summary.getD "").data ∧
  (∀ sv ∈ p.scores, '\n' ∉ (sv.1 : String).data ∧ ':' ∉ (sv.1 : String).data)

theorem parseProjectBlock_render (p : RProject) (r : List Char) (hwf : wfRProject p) :
    parseProjectBlock ((renderProject p).data ++ r) = some (p.scores, r) := by
  obtain ⟨hname, hurl, hstatus, herr, hmeta, hsum, hscores⟩ := hwf
  obtain ⟨body, hbody, hbodynl⟩ := summaryLine_render p.summary
    (((if p.scores ≠ [] then "- **Scores:**\n" ++ renderScoreLines p.scores
      else ("- **Scores:** Not assigned.\n" : String))).data ++ '\n' :: r) hsum
  have hdec : (renderProject p).data ++ r =
      ("### [".data) ++
        ((p.repo_name.data ++ ("](".data ++ (p.url.data ++ [')']))) ++ '\n' ::
          (("- **Status:** ".data) ++ (p.status.data ++ '\n' ::
            (((if pyTruthy p.error then "- **Error:** " ++ p.error.getD "" ++ "\n"
                else ("" : String))).data ++
              (("- **Metadata:**\n".data) ++ ((renderMetaLines p.metadata).data ++
                (((if pyTruthy p.summary then "- **LLM Summary:** " ++ p.summary.getD "" ++ "\n"
                    else ("- **LLM Summary:** Not available.\n" : String))).data ++
                  (((if p.scores ≠ [] then "- **Scores:**\n" ++ renderScoreLines p.scores
                      else ("- **Scores:** Not assigned.\n" : String))).data ++
                    '\n' :: r)))))))) := by
    simp [renderProject, String.data_append, List.append_assoc]
  have htitle : pLine ((p.repo_name.data ++ ("](".data ++ (p.url.data ++ [')']))) ++ '\n' ::
      (("- **Status:** ".data) ++ (p.status.data ++ '\n' ::
        (((if pyTruthy p.error then "- **Error:** " ++ p.error.getD "" ++ "\n"
            else ("" : String))).data ++
          (("- **Metadata:**\n".data) ++ ((renderMetaLines p.metadata).data ++
            (((if pyTruthy p.summary then "- **LLM Summary:** " ++ p.summary.getD "" ++ "\n"
                else ("- **LLM Summary:** Not available.\n" : String))).data ++
              (((if p.scores ≠ [] then "- **Scores:**\n" ++ renderScoreLines p.scores
                  else ("- **Scores:** Not assigned.\n" : String))).data ++
                '\n' :: r)))))))) =
      some ((p.repo_name.data ++ ("](".data ++ (p.url.data ++ [')']))),
        (("- **Status:** ".data) ++ (p.status.data ++ '\n' ::
          (((if pyTruthy p.error then "- **Error:** " ++ p.error.getD "" ++ "\n"
              else ("" : String))).data ++
            (("- **Metadata:**\n".data) ++ ((renderMetaLines p.metadata).data ++
              (((if pyTruthy p.summary then "- **LLM Summary:** " ++ p.summary.getD "" ++ "\n"
                  else ("- **LLM Summary:** Not available.\n" : String))).data ++
                (((if p.scores ≠ [] then "- **Scores:**\n" ++ renderScoreLines p.scores
                    else ("- **Scores:** Not assigned.\n" : String))).data ++
                  '\n' :: r)))))))) := by
    apply pLine_append
    intro hmem
    rcases List.mem_append.mp hmem with h1 | h2
    · exact hname h1
    · rcases List.mem_append.mp h2 with h3 | h4
      · revert h3
        decide
      · rcases List.mem_append.mp h4 with h5 | h6
        · exact hurl h5
        · revert h6
          decide
  have hstatusline : pLine (p.status.data ++ '\n' ::
      (((if pyTruthy p.error then "- **Error:** " ++ p.error.getD "" ++ "\n"
          else ("" : String))).data ++
        (("- **Metadata:**\n".data) ++ ((renderMetaLines p.metadata).data ++
          (((if pyTruthy p.summary then "- **LLM Summary:** " ++ p.summary.getD "" ++ "\n"
              else ("- **LLM Summary:** Not available.\n" : String))).data ++
            (((if p.scores ≠ [] then "- **Scores:**\n" ++ renderScoreLines p.scores
                else ("- **Scores:** Not assigned.\n" : String))).data ++
              '\n' :: r)))))) =
      some (p.status.data,
        (((if pyTruthy p.error then "- **Error:** " ++ p.error.getD "" ++ "\n"
            else ("" : String))).data ++
          (("- **Metadata:**\n".data) ++ ((renderMetaLines p.metadata).data ++
            (((if pyTruthy p.summary then "- **LLM Summary:** " ++ p.summary.getD "" ++ "\n"
                else ("- **LLM Summary:** Not available.\n" : String))).data ++
              (((if p.scores ≠ [] then "- **Scores:**\n" ++ renderScoreLines p.scores
                  else ("- **Scores:** Not assigned.\n" : String))).data ++
                '\n' :: r)))))) :=
    pLine_append _ _ hstatus
  have herrdrop : dropLit ("- **Error:** ".data)
      (("- **Metadata:**\n".data) ++ ((renderMetaLines p.metadata).data ++
        (((if pyTruthy p.summary then "- **LLM Summary:** " ++ p.summary.getD "" ++ "\n"
            else ("- **LLM Summary:** Not available.\n" : String))).data ++
          (((if p.scores ≠ [] then "- **Scores:**\n" ++ renderScoreLines p.scores
              else ("- **Scores:** Not assigned.\n" : String))).data ++
            '\n' :: r)))) = none := by
    have hE : ("- **Error:** " : String).data =
        (("- **" : String).data) ++ 'E' :: (("rror:** " : String).data) := rfl
    have hM : ("- **Metadata:**\n" : String).data =
        (("- **" : String).data) ++ 'M' :: (("etadata:**\n" : String).data) := rfl
    rw [hE, hM]
    exact dropLit_none_helper _ _ _ _ (by decide)
  have herrstep := skipErrorLine_render p.error
    (("- **Metadata:**\n".data) ++ ((renderMetaLines p.metadata).data ++
      (((if pyTruthy p.summary then "- **LLM Summary:** " ++ p.summary.getD "" ++ "\n"
          else ("- **LLM Summary:** Not available.\n" : String))).data ++
        (((if p.scores ≠ [] then "- **Scores:**\n" ++ renderScoreLines p.scores
            else ("- **Scores:** Not assigned.\n" : String))).data ++
          '\n' :: r)))) herr herrdrop
  have hsumdrop : dropLit ("  - ".data)
      (((if pyTruthy p.summary then "- **LLM Summary:** " ++ p.summary.getD "" ++ "\n"
          else ("- **LLM Summary:** Not available.\n" : String))).data ++
        (((if p.scores ≠ [] then "- **Scores:**\n" ++ renderScoreLines p.scores
            else ("- **Scores:** Not assigned.\n" : String))).data ++
          '\n' :: r)) = none := by
    rw [hbody]
    have hL : ("- **LLM Summary:** " : String).data =
        '-' :: ((" **LLM Summary:** " : String).data) := rfl
    rw [hL, List.cons_append]
    exact dropLit_cons_ne _ _ (by decide)
  have hsumne : (((if pyTruthy p.summary then "- **LLM Summary:** " ++ p.summary.getD "" ++ "\n"
      else ("- **LLM Summary:** Not available.\n" : String))).data ++
        (((if p.scores ≠ [] then "- **Scores:**\n" ++ renderScoreLines p.scores
            else ("- **Scores:** Not assigned.\n" : String))).data ++
          '\n' :: r)) ≠ [] := by
    rw [hbody]
    simp
  have hmetastep := skipMetaLines_render p.metadata
    ((((if pyTruthy p.summary then "- **LLM Summary:** " ++ p.summary.getD "" ++ "\n"
        else ("- **LLM Summary:** Not available.\n" : String))).data ++
      (((if p.scores ≠ [] then "- **Scores:**\n" ++ renderScoreLines p.scores
          else ("- **Scores:** Not assigned.\n" : String))).data ++
        '\n' :: r))) hmeta hsumdrop hsumne
  have hsumdrop2 : dropLit ("- **LLM Summary:** ".data)
      (((if pyTruthy p.summary then "- **LLM Summary:** " ++ p.summary.getD "" ++ "\n"
          else ("- **LLM Summary:** Not available.\n" : String))).data ++
        (((if p.scores ≠ [] then "- **Scores:**\n" ++ renderScoreLines p.scores
            else ("- **Scores:** Not assigned.\n" : String))).data ++
          '\n' :: r)) =
      some (body ++ '\n' ::
        (((if p.scores ≠ [] then "- **Scores:**\n" ++ renderScoreLines p.scores
            else ("- **Scores:** Not assigned.\n" : String))).data ++
          '\n' :: r)) := by
    rw [hbody]
    exact dropLit_append _ _
  have hsumline : pLine (body ++ '\n' ::
      (((if p.scores ≠ [] then "- **Scores:**\n" ++ renderScoreLines p.scores
          else ("- **Scores:** Not assigned.\n" : String))).data ++
        '\n' :: r)) =
      some (body,
        (((if p.scores ≠ [] then "- **Scores:**\n" ++ renderScoreLines p.scores
            else ("- **Scores:** Not assigned.\n" : String))).data ++
          '\n' :: r)) :=
    pLine_append _ _ hbodynl
  have hscdrop : dropLit ("  - ".data) ('\n' :: r) = none :=
    dropLit_cons_ne _ _ (by decide)
  have hscsection := parseScoresSection_render p.scores ('\n' :: r) hscores hscdrop (by simp)
  have hfinal : dropLit (("\n" : String).data) ('\n' :: r) = some r :=
    dropLit_append (("\n" : String)).data r
  rw [hdec]
  simp only [parseProjectBlock, dropLit_append, Option.some_bind, htitle, hstatusline,
    herrstep, hmetastep, hsumdrop2, hsumline, hscsection, hfinal, Option.map_some']

theorem renderProject_data_ne_nil (p : RProject) : (renderProject p).data ≠ [] := by
  simp [renderProject, String.data_append]

theorem parseProjectBlock_nil : parseProjectBlock [] = none := rfl

theorem parseProjectsF_render (ps : List RProject) (r : List Char) (fuel : ℕ)
    (hwf : ∀ p ∈ ps, wfRProject p)
    (hstop : parseProjectBlock r = none)
    (hfuel : (renderProjects ps).data.length + r.length < fuel) :
    parseProjectsF fuel ((renderProjects ps).data ++ r) = some (ps.map RProject.scores, r) := by
  induction ps generalizing fuel with
  | nil =>
      cases fuel with
      | zero => omega
      | succ f =>
          have hinput : (renderProjects ([] : List RProject)).data ++ r = r := rfl
          rw [hinput]
          unfold parseProjectsF
          rw [hstop]
          rfl
  | cons p ps ih =>
      cases fuel with
      | zero => omega
      | succ f =>
          have hr : (renderProjects (p :: ps)).data ++ r =
              (renderProject p).data ++ ((renderProjects ps).data ++ r) := by
            simp [renderProjects, String.data_append, List.append_assoc]
          rw [hr]
          have hblock := parseProjectBlock_render p ((renderProjects ps).data ++ r)
            (hwf p (List.mem_cons_self p ps))
          have hlen : (renderProjects ps).data.length + r.length < f := by
            have hpos : 0 < (renderProject p).data.length :=
              List.length_pos.mpr (renderProject_data_ne_nil p)
            have hlen2 : (renderProjects (p :: ps)).data.length =
                (renderProject p).data.length + (renderProjects ps).data.length := by
              simp [renderProjects, String.data_append]
            omega
          have hih := ih f (fun q hq => hwf q (List.mem_cons_of_mem p hq)) hlen
          unfold parseProjectsF
          rw [hblock]
          show (match parseProjectsF f ((renderProjects ps).data ++ r) with
                | none => none
                | some out => some (p.scores :: out.1, out.2)) =
            some ((p :: ps).map RProject.scores, r)
          rw [hih]
          rfl

theorem parseProjects_render (ps : List RProject) (r : List Char)
    (hwf : ∀ p ∈ ps, wfRProject p) (hstop : parseProjectBlock r = none) :
    parseProjects ((renderProjects ps).data ++ r) = some (ps.map RProject.scores, r) := by
  unfold parseProjects
  exact parseProjectsF_render ps r _ hwf hstop (by rw [List.length_append]; omega)

theorem extractProjectsSection_render (projs : List RProject)
    (hwf : ∀ p ∈ projs, wfRProject p) :
    extractProjectsSection (("\n## Analyzed Projects\n".data) ++
      ((if projs ≠ [] then renderProjects projs
        else ("No GitHub projects were successfully analyzed.\n" : String))).data) =
      some (projs.map RProject.scores) := by
  by_cases hp : projs = []
  · subst hp
    decide
  · rw [if_pos (by simp [hp])]
    have h2 : parseProjects ((renderProjects projs).data) =
        some (projs.map RProject.scores, []) := by
      have := parseProjects_render projs [] hwf parseProjectBlock_nil
      rwa [List.append_nil] at this
    unfold extractProjectsSection
    rw [dropLit_append]
    simp [h2, Option.pure_def]

theorem valueOrNA_no_newline (v : Option ScoreVal) : '\n' ∉ (valueOrNA v).data := by
  cases v with
  | none => decide
  | some w =>
      intro h
      exact scoreValStr_no_newline h rfl

theorem parseValueLine_valueOrNA (v : Option ScoreVal) :
    parseValueLine ((valueOrNA v).data) = v := by
  cases v with
  | none => decide
  | some w =>
      unfold parseValueLine valueOrNA
      rw [if_neg (scoreValStr_ne_NA w), parseScoreVal_scoreValStr]

theorem extractHeader_render (v1 v2 v3 : Option ScoreVal) (resume : String) (R : List Char)
    (hsnip : '\n' ∉ resume.data.take 200) :
    extractHeader (
      ("# CodeCredX Candidate Report\n".data) ++
      (("---\n".data) ++
      (("## Candidate Overview\n".data) ++
      (("**Overall Score:** ".data) ++
      ((valueOrNA v1).data ++ '\n' ::
      (("**Simulated Elo Rating:** ".data) ++
      ((valueOrNA v2).data ++ '\n' ::
      (("**Number of Successful Projects Analyzed:** ".data) ++
      ((valueOrNA v3).data ++ '\n' ::
      (("**Resume Snippet:**\n```\n".data) ++
      ((resume.data.take 200 ++ ('.' :: '.' :: '.' :: ([] : List Char))) ++ '\n' ::
      (("```\n".data) ++ R)))))))))))) =
      some (((valueOrNA v1).data, (valueOrNA v2).data, (valueOrNA v3).data), R) := by
  have h1 := fun r => pLine_append ((valueOrNA v1).data) r (valueOrNA_no_newline v1)
  have h2 := fun r => pLine_append ((valueOrNA v2).data) r (valueOrNA_no_newline v2)
  have h3 := fun r => pLine_append ((valueOrNA v3).data) r (valueOrNA_no_newline v3)
  have hsnip2 : '\n' ∉ (resume.data.take 200 ++ ('.' :: '.' :: '.' :: ([] : List Char))) := by
    intro hmem
    rcases List.mem_append.mp hmem with h | h
    · exact hsnip h
    · revert h
      decide
  have h4 := fun r =>
    pLine_append (resume.data.take 200 ++ ('.' :: '.' :: '.' :: ([] : List Char))) r hsnip2
  simp only [extractHeader, Option.bind_eq_bind, Option.some_bind, dropLit_append,
    h1, h2, h3, h4, Option.pure_def]

theorem extractUrlSections_render (gh other : List String) (R : List Char)
    (hg : ∀ u ∈ gh, '\n' ∉ u.data)
    (ho : ∀ u ∈ other, '\n' ∉ u.data)
    (hR : R.head? = some '\n') :
    extractUrlSections (("\n## Extracted URLs\n".data) ++
      (("### GitHub Project URLs:\n".data) ++
      (((if gh ≠ [] then renderUrlLines gh
          else ("No GitHub project URLs found in resume.\n" : String))).data ++
      (("\n### Other URLs:\n".data) ++
      (((if other ≠ [] then renderUrlLines other
          else ("No other URLs found in resume.\n" : String))).data ++ R))))) = some R := by
  have h1 := skipItemLines_urlBlock gh ("No GitHub project URLs found in resume.\n")
    (("\n### Other URLs:\n".data) ++
      (((if other ≠ [] then renderUrlLines other
          else ("No other URLs found in resume.\n" : String))).data ++ R)) hg
    ⟨("No GitHub project URLs found in resume." : String).data, rfl, by decide, by decide⟩
    rfl
  have h2 := skipItemLines_urlBlock other ("No other URLs found in resume.\n") R ho
    ⟨("No other URLs found in resume." : String).data, rfl, by decide, by decide⟩ hR
  simp only [extractUrlSections, Option.bind_eq_bind, Option.some_bind, dropLit_append, h1, h2]

/-- The well-formedness conditions under which the rendered report is
unambiguous: the first 200 characters of the resume, the extracted URLs and
each project's free-text fields are newline-free, and score names are
colon-free. -/
def wfReportData (d : ReportData) : Prop :=
  '\n' ∉ d.resume_text.data.take 200 ∧
  (∀ u ∈ d.github_project_urls, '\n' ∉ u.data) ∧
  (∀ u ∈ d.other_urls, '\n' ∉ u.data) ∧
  (∀ p ∈ d.analyzed_github_projects, wfRProject p)

set_option maxRecDepth 8000

theorem scoreValStr_int_one : scoreValStr (ScoreVal.int 1) = "1" := by
  apply String.ext
  show (natStr 1).data = ("1" : String).data
  rw [natStr_single 1 (by decide) (by decide)]
  decide

theorem scoreValStr_int_two : scoreValStr (ScoreVal.int 2) = "2" := by
  apply String.ext
  show (natStr 2).data = ("2" : String).data
  rw [natStr_single 2 (by decide) (by decide)]
  decide

theorem c9_scorelines_eq :
    renderScoreLines [("a", ScoreVal.int 1), ("b", ScoreVal.int 2)] =
      renderScoreLines [(("a: 1\n  - b" : String), ScoreVal.int 2)] := by
  apply String.ext
  simp [renderScoreLines, scoreValStr_int_one, scoreValStr_int_two, String.data_append]

/-- A project whose score names contain the report's own line delimiters. -/
def c9p2 : RProject :=
  { repo_name := "demo", url := "https://github.com/u/demo", status := "success",
    scores := [("a: 1\n  - b", ScoreVal.int 2)] }

/-- The same project with the two scores the rendering of `c9p2` reads as. -/
def c9p1 : RProject :=
  { repo_name := "demo", url := "https://github.com/u/demo", status := "success",
    scores := [("a", ScoreVal.int 1), ("b", ScoreVal.int 2)] }

/-- A fully-populated successful project for the witness report. -/
def c9proj : RProject :=
  { repo_name := "demo", url := "https://github.com/u/demo", status := "success",
    metadata := [("stars", "42")], summary := some "A demo repo.",
    scores := [("contribution_score", ScoreVal.float 42),
      ("trust_score", ScoreVal.float 7930)] }

/-- A well-formed concrete report input exercising every section. -/
def c9d : ReportData :=
  { resume_text := "Jane Doe, software engineer.",
    github_project_urls := ["https://github.com/u/demo"],
    other_urls := [],
    analyzed_github_projects := [c9proj],
    overall_candidate_score := some (ScoreVal.float 7930),
    elo_score := some (ScoreVal.float 175160),
    num_successful_projects := some (ScoreVal.int 1) }

theorem c9_renderProjects_eq : renderProjects [c9p1] = renderProjects [c9p2] := by
  apply String.ext
  simp [renderProjects, renderProject, c9p1, c9p2, pyTruthy, renderMetaLines,
    c9_scorelines_eq, String.data_append]

/-- C9 (counterexample): report rendering is not injective on the per-project
score data, so for some Contexts the embedded score values cannot be
re-extracted from the rendered text.  Two Contexts that differ in a
project's score mapping — two scores `a: 1`, `b: 2` versus the single score
named `"a: 1\n  - b"` with value 2 — render to the identical report string,
refuting the claim that rendering loses no score data for every Context. -/
theorem c9_counterexample :
    reportGenerationExec { analyzed_github_projects := [c9p1] } =
      reportGenerationExec { analyzed_github_projects := [c9p2] } ∧
    ({ analyzed_github_projects := [c9p1] } : ReportData).analyzed_github_projects.map
        RProject.scores ≠
      ({ analyzed_github_projects := [c9p2] } : ReportData).analyzed_github_projects.map
        RProject.scores := by
  constructor
  · have h := c9_renderProjects_eq
    simp [reportGenerationExec, h]
  · decide

/-- C9 (amended): for every Context whose embedded free-text fields are
newline-free and whose score names are colon-free, rendering the report via
`ReportGenerationNode.exec` and re-extracting the embedded score fields
(overall candidate score, Elo rating, number of successful projects, and
each project's score mapping) from the rendered text yields exactly the
values present in the Context: on well-formed Contexts report rendering
neither loses nor alters score data. -/
theorem c9_amended_report_roundtrip (d : ReportData) (hwf : wfReportData d) :
    extractReportScores (reportGenerationExec d) =
      some ⟨d.overall_candidate_score, d.elo_score, d.num_successful_projects,
        d.analyzed_github_projects.map RProject.scores⟩ := by
  obtain ⟨hsnip, hg, ho, hp⟩ := hwf
  have h3 := extractProjectsSection_render d.analyzed_github_projects hp
  have h2 := extractUrlSections_render d.github_project_urls d.other_urls
    (("\n## Analyzed Projects\n".data) ++
      ((if d.analyzed_github_projects ≠ [] then renderProjects d.analyzed_github_projects
        else ("No GitHub projects were successfully analyzed.\n" : String))).data)
    hg ho rfl
  have h1 := extractHeader_render d.overall_candidate_score d.elo_score
    d.num_successful_projects d.resume_text
    (("\n## Extracted URLs\n".data) ++
      (("### GitHub Project URLs:\n".data) ++
      (((if d.github_project_urls ≠ [] then renderUrlLines d.github_project_urls
          else ("No GitHub project URLs found in resume.\n" : String))).data ++
      (("\n### Other URLs:\n".data) ++
      (((if d.other_urls ≠ [] then renderUrlLines d.other_urls
          else ("No other URLs found in resume.\n" : String))).data ++
        (("\n## Analyzed Projects\n".data) ++
          ((if d.analyzed_github_projects ≠ [] then renderProjects d.analyzed_github_projects
            else ("No GitHub projects were successfully analyzed.\n" : String))).data))))))
    hsnip
  have hdec : (reportGenerationExec d).data =
      ("# CodeCredX Candidate Report\n".data) ++
      (("---\n".data) ++
      (("## Candidate Overview\n".data) ++
      (("**Overall Score:** ".data) ++
      ((valueOrNA d.overall_candidate_score).data ++ '\n' ::
      (("**Simulated Elo Rating:** ".data) ++
      ((valueOrNA d.elo_score).data ++ '\n' ::
      (("**Number of Successful Projects Analyzed:** ".data) ++
      ((valueOrNA d.num_successful_projects).data ++ '\n' ::
      (("**Resume Snippet:**\n```\n".data) ++
      ((d.resume_text.data.take 200 ++ ('.' :: '.' :: '.' :: ([] : List Char))) ++ '\n' ::
      (("```\n".data) ++
        (("\n## Extracted URLs\n".data) ++
          (("### GitHub Project URLs:\n".data) ++
          (((if d.github_project_urls ≠ [] then renderUrlLines d.github_project_urls
              else ("No GitHub project URLs found in resume.\n" : String))).data ++
          (("\n### Other URLs:\n".data) ++
          (((if d.other_urls ≠ [] then renderUrlLines d.other_urls
              else ("No other URLs found in resume.\n" : String))).data ++
            (("\n## Analyzed Projects\n".data) ++
              ((if d.analyzed_github_projects ≠ [] then renderProjects d.analyzed_github_projects
                else ("No GitHub projects were successfully analyzed.\n" : String))).data))))))))))))))))) := by
    simp [reportGenerationExec, String.data_append, List.append_assoc]
  unfold extractReportScores
  rw [hdec]
  simp only [Option.bind_eq_bind, Option.some_bind, h1, h2, h3, Option.pure_def,
    parseValueLine_valueOrNA]

/-- C9 (amended, witness): the round-trip theorem applied at the concrete
well-formed report input `c9d`. -/
theorem c9_amended_witness :
    extractReportScores (reportGenerationExec c9d) =
      some ⟨c9d.overall_candidate_score, c9d.elo_score, c9d.num_successful_projects,
        c9d.analyzed_github_projects.map RProject.scores⟩ :=
  c9_amended_report_roundtrip c9d (by simp only [wfReportData, wfRProject]; decide)

end CodeCredX
